import Mathlib

/-!
# Nova personal-assistant orchestrator: a shallow embedding

This file embeds, in Lean, the core components of the Nova repository:

* the reminder scheduler (`SchedulingService` in the scheduling module:
  `scheduleWakeup`, `findNearbyReminder`, `mergeIntoExistingReminder`,
  `processWakeups`), modelled over an explicit sorted index plus record
  store in place of the Redis sorted set and key space;
* the plan resolver of `action-executor.js`
  (`resolveEmailIdentifier`, `parseEmailSequence`, `resolveAccountId`,
  the `looksLikeSender` / `looksLikeSubject` heuristics);
* the action dispatcher of `action-executor.js` (`executeAction`,
  `notifyOwner`, `notifyOwnerIfNeeded`, `handleCheckEmail`,
  `handleSearchEmail`, `handleUnsubscribeEmail`, `summarizeEmails`,
  `buildUnsubscribeSummary`);
* the reasoning normalizer of `nova-brain.js` (the post-LLM portion of
  `NovaBrain.respond` together with `getAllowedActionsForContext`).

Modelling conventions:

* JavaScript values carried by loosely-typed plan objects are modelled by
  the inductive `JVal`; JS objects are association lists with unique keys
  in insertion order; property absence is `Option`.
* JS numbers are modelled as integers (`Int`); the code under study only
  ever treats them as integers (sequence numbers, limits, epoch
  milliseconds).
* Timestamps (epoch milliseconds) are `Nat`, threaded explicitly in place
  of `Date.now()`.
* `async` functions that may `throw` are `Except String` computations;
  external collaborators (IMAP search, mailbox listing, notification
  transport) are oracle functions supplied as parameters.
* The Redis collaborator is modelled as an explicit state (`SchedState`):
  a score-sorted list of `(score, member)` pairs for the `nova_wakeups`
  sorted set, plus an association list for the record store.  Records are
  held structured (the `JSON.stringify`/`JSON.parse` round trip is the
  identity on well-formed records, and `zadd`/`zrem`/`get`/`set`/`del`
  are each atomic exactly as in the source's single-key operations).
-/

namespace Nova

/-! ## JavaScript value model -/

/-- A JavaScript/JSON value as produced by `JSON.parse` and carried inside
plan objects.  Objects are association lists (unique keys, insertion
order); `jnull` stands for JS `null`. -/
inductive JVal where
  | jnull
  | jbool (b : Bool)
  | jnum (n : Int)
  | jstr (s : String)
  | jarr (elems : List JVal)
  | jobj (fields : List (String × JVal))

/-- A JavaScript object: fields with unique keys, in insertion order. -/
abbrev JObj := List (String × JVal)

/-- JS truthiness of a value. -/
def JVal.truthy : JVal → Bool
  | .jnull => false
  | .jbool b => b
  | .jnum n => n != 0
  | .jstr s => !s.isEmpty
  | .jarr _ => true
  | .jobj _ => true

mutual

/-- JS `String(value)` coercion (numbers are modelled as integers). -/
def jsToString : JVal → String
  | .jnull => "null"
  | .jbool b => if b then "true" else "false"
  | .jnum n => toString n
  | .jstr s => s
  | .jarr elems => String.intercalate "," (jsToStringArr elems)
  | .jobj _ => "[object Object]"

/-- Array elements under `Array.prototype.toString`: `null` (and absent)
entries render empty, the rest via `String(...)`. -/
def jsToStringArr : List JVal → List String
  | [] => []
  | .jnull :: rest => "" :: jsToStringArr rest
  | v :: rest => jsToString v :: jsToStringArr rest

end

/-- Property read: `obj[k]`, `none` when the property is absent. -/
def objGet (fields : JObj) (k : String) : Option JVal :=
  fields.lookup k

/-- Property write: `obj[k] = v` (updates in place, appends when new). -/
def objSet : JObj → String → JVal → JObj
  | [], k, v => [(k, v)]
  | (k', v') :: rest, k, v =>
      if k' = k then (k', v) :: rest else (k', v') :: objSet rest k v

/-- Property removal: `delete obj[k]`. -/
def objDelete (fields : JObj) (k : String) : JObj :=
  fields.filter fun p => p.1 ≠ k

/-- `Object.assign(target, src)`. -/
def objAssign (target src : JObj) : JObj :=
  src.foldl (fun acc kv => objSet acc kv.1 kv.2) target

/-- Truthiness of a possibly-absent property (`!obj.k` negated). -/
def optTruthy (v : Option JVal) : Bool :=
  match v with
  | some w => w.truthy
  | none => false

/-- `typeof v === "string" && v` : the value is a non-empty string. -/
def isNonemptyStr (v : Option JVal) : Bool :=
  match v with
  | some (.jstr s) => !s.isEmpty
  | _ => false

/-! ## String helpers mirroring the JS operations used by the source

The embeddings avoid the core `String` functions whose implementations do
not reduce inside the kernel (`trim`, `toLower`, `toNat?`, `startsWith`,
`splitOn`, `contains`); each is re-implemented structurally on the
character list so that theorems about concrete inputs evaluate. -/

/-- `s.toLowerCase()` (ASCII case folding). -/
def jsToLower (s : String) : String := String.mk (s.data.map Char.toLower)

/-- `s.trim()`. -/
def jsTrim (s : String) : String :=
  String.mk (((s.data.dropWhile Char.isWhitespace).reverse.dropWhile
    Char.isWhitespace).reverse)

/-- Strict decimal parse: `/^\d+$/.test(t)` followed by `parseInt(t, 10)`. -/
def digitsToNat? (s : String) : Option Nat :=
  if !s.data.isEmpty && s.data.all Char.isDigit then
    some (s.data.foldl (fun acc c => acc * 10 + (c.toNat - Char.toNat '0')) 0)
  else none

/-- `s.startsWith(pre)`. -/
def strStartsWith (s pre : String) : Bool := pre.data.isPrefixOf s.data

/-- JS `a.join(sep)` on a list of strings. -/
def joinWith (sep : String) : List String → String
  | [] => ""
  | [x] => x
  | x :: y :: rest => x ++ sep ++ joinWith sep (y :: rest)

/-- Replace the first occurrence of `pat` (non-empty) in a character
list. -/
def replaceFirstAux (pat rep : List Char) : List Char → List Char
  | [] => []
  | c :: rest =>
      if pat.isPrefixOf (c :: rest) then rep ++ (c :: rest).drop pat.length
      else c :: replaceFirstAux pat rep rest

/-- First-occurrence `s.replace(pat, rep)` with a string pattern (an empty
pattern inserts at the start, as in JS). -/
def replaceFirst (s pat rep : String) : String :=
  if pat.isEmpty then String.mk (rep.data ++ s.data)
  else String.mk (replaceFirstAux pat.data rep.data s.data)

/-- `s.includes(sub)` (substring search). -/
def substrSearch (needle : List Char) : List Char → Bool
  | [] => needle.isEmpty
  | c :: rest => needle.isPrefixOf (c :: rest) || substrSearch needle rest

/-- `s.includes(sub)` on strings. -/
def jsIncludes (s sub : String) : Bool :=
  substrSearch sub.data s.data

/-- JS `\w`: `[A-Za-z0-9_]`. -/
def isWordChar (c : Char) : Bool := c.isAlphanum || c = '_'

/-- A `\b` word boundary immediately after a match position. -/
def boundaryAfter : List Char → Bool
  | [] => true
  | c :: _ => !isWordChar c

/-- Scan for `\bneedle\b`; `atB` records whether the current position sits
at a word boundary (start of string or after a non-word character). -/
def wordSearch (needle : List Char) : Bool → List Char → Bool
  | _, [] => false
  | atB, c :: rest =>
      (atB && needle.isPrefixOf (c :: rest)
           && boundaryAfter ((c :: rest).drop needle.length))
      || wordSearch needle (!isWordChar c) rest

/-- Case-insensitive `\bneedle\b` regex test (`/\b…\b/i.test(hay)`). -/
def containsWordCI (hay needle : String) : Bool :=
  wordSearch (jsToLower needle).data true (jsToLower hay).data

/-- Case-insensitive prefix test (`/^pre/i.test(s)` for a literal `pre`). -/
def startsWithCI (s pre : String) : Bool :=
  strStartsWith (jsToLower s) pre

/-- `/^from\s+/i.test(s)`. -/
def startsWithFromWs (s : String) : Bool :=
  let l := (jsToLower s).data
  "from".data.isPrefixOf l &&
    (match l.drop 4 with
     | c :: _ => c.isWhitespace
     | [] => false)

/-- Consume `\s+` (at least one whitespace character), greedily. -/
def takeWsThen (l : List Char) : Option (List Char) :=
  match l with
  | c :: rest => if c.isWhitespace then some (rest.dropWhile Char.isWhitespace) else none
  | [] => none

/-- `/^[A-Z][a-z]+\s+(meeting|call|update|report)/i.test(s)`: under the `i`
flag both character classes match any ASCII letter. -/
def capWordPattern (s : String) : Bool :=
  match (jsToLower s).data with
  | c1 :: c2 :: rest =>
      if c1.isAlpha && c2.isAlpha then
        match takeWsThen (rest.dropWhile Char.isAlpha) with
        | some after =>
            ["meeting", "call", "update", "report"].any
              (fun w => w.data.isPrefixOf after)
        | none => false
      else false
  | _ => false

/-- Collapse every maximal whitespace run into a single space:
`text.replace(/\s+/g, " ")`. -/
def squeezeSpaces : List Char → List Char
  | [] => []
  | [c] => [c]
  | a :: b :: rest =>
      if a = ' ' && b = ' ' then squeezeSpaces (b :: rest)
      else a :: squeezeSpaces (b :: rest)

/-- `text.replace(/\s+/g, " ")` on strings. -/
def collapseWs (s : String) : String :=
  String.mk (squeezeSpaces (s.data.map fun c => if c.isWhitespace then ' ' else c))

/-- JS `v || d` for an optional string (empty string counts as absent). -/
def jsOr (v : Option String) (d : String) : String :=
  match v with
  | some s => if s.isEmpty then d else s
  | none => d

/-! ## SchedulingService (reminder store with proximity merge)

Embedding of the scheduling module's `SchedulingService` (the variant with
reminder merging): the Redis sorted set `nova_wakeups` becomes a
score-sorted association list, the record key space an association list
from task ids to structured records. -/

/-- One entry of a reminder's `mergedTasks` array.  `time` records the
`new Date().toISOString()` creation instant, modelled as the epoch
millisecond value it renders. -/
structure MergedTask where
  task : String
  context : String
  time : Nat
  scheduledFor : Nat
deriving Repr, DecidableEq

/-- A persisted reminder record (`wakeupData` in the source). -/
structure WakeupData where
  task : String
  context : String
  category : Option String
  originalTime : Nat
  wakeupTime : Nat
  mergedTasks : List MergedTask
deriving Repr, DecidableEq

/-- The Redis state owned by the scheduler: the `nova_wakeups` sorted set
as `(score, member)` pairs sorted ascending by score, plus the record
store keyed by task id. -/
structure SchedState where
  index : List (Nat × String)
  store : List (String × WakeupData)
deriving Repr, DecidableEq

/-- The empty Redis state. -/
def SchedState.empty : SchedState := ⟨[], []⟩

/-- `ZRANGE key lo hi BYSCORE`: members whose score lies in `[lo, hi]`,
in score order. -/
def zrangeByScore (index : List (Nat × String)) (lo hi : Nat) : List String :=
  (index.filter fun p => decide (lo ≤ p.1 ∧ p.1 ≤ hi)).map Prod.snd

/-- `ZREM key member`. -/
def zrem (index : List (Nat × String)) (member : String) : List (Nat × String) :=
  index.filter fun p => p.2 ≠ member

/-- Insert keeping the Redis ordering (by score, ties by member string). -/
def zinsert : List (Nat × String) → Nat → String → List (Nat × String)
  | [], score, member => [(score, member)]
  | p :: rest, score, member =>
      if score < p.1 ∨ (score = p.1 ∧ member < p.2) then
        (score, member) :: p :: rest
      else p :: zinsert rest score member

/-- `ZADD key score member` (updates the member's score when present). -/
def zadd (index : List (Nat × String)) (score : Nat) (member : String) :
    List (Nat × String) :=
  zinsert (zrem index member) score member

/-- `GET id` on the record store. -/
def storeGet (store : List (String × WakeupData)) (id : String) : Option WakeupData :=
  store.lookup id

/-- `SET id record` on the record store. -/
def storeSet : List (String × WakeupData) → String → WakeupData → List (String × WakeupData)
  | [], id, d => [(id, d)]
  | (id', d') :: rest, id, d =>
      if id' = id then (id', d) :: rest else (id', d') :: storeSet rest id d

/-- `DEL id` on the record store. -/
def storeDel (store : List (String × WakeupData)) (id : String) :
    List (String × WakeupData) :=
  store.filter fun p => p.1 ≠ id

/-- Default merge window: 2 hours in milliseconds. -/
def defaultMergeWindowMs : Nat := 2 * 60 * 60 * 1000

/-- `findNearbyReminder(targetTime)`: scan the sorted index for entries
within `±mergeWindowMs` of the target, and return the id of the reminder
whose stored `wakeupTime` is closest (strictly closer wins, so the first
of equally-distant entries is kept). -/
def findNearbyReminder (s : SchedState) (mergeWindowMs targetTime : Nat) :
    Option String :=
  let nearbyTasks := zrangeByScore s.index (targetTime - mergeWindowMs)
      (targetTime + mergeWindowMs)
  let best := nearbyTasks.foldl
    (fun (acc : Option (String × Nat)) taskId =>
      match storeGet s.store taskId with
      | some d =>
          let distance := Nat.dist d.wakeupTime targetTime
          match acc with
          | none => some (taskId, distance)
          | some (_, closest) =>
              if distance < closest then some (taskId, distance) else acc
      | none => acc)
    none
  best.map Prod.fst

/-- `mergeIntoExistingReminder(existingTaskId, newTask, newContext,
newWakeupTime)`: append to `mergedTasks`, rewrite the combined label,
pull the fire-time earlier when the new target is earlier (re-indexing the
member), and store the updated record. -/
def mergeIntoExistingReminder (s : SchedState) (existingTaskId newTask newContext : String)
    (now newWakeupTime : Nat) : SchedState × Option String :=
  match storeGet s.store existingTaskId with
  | none => (s, none)
  | some wakeupData =>
      let merged := wakeupData.mergedTasks ++
        [{ task := newTask, context := newContext, time := now,
           scheduledFor := newWakeupTime }]
      let taskCount := merged.length
      let d1 : WakeupData :=
        { wakeupData with
          mergedTasks := merged,
          task := "Combined reminder (" ++ toString taskCount ++ " tasks)" }
      let earliestTime := min wakeupData.wakeupTime newWakeupTime
      let (index', d2) :=
        if earliestTime ≠ wakeupData.wakeupTime then
          (zadd (zrem s.index existingTaskId) earliestTime existingTaskId,
           { d1 with wakeupTime := earliestTime })
        else (s.index, d1)
      ({ index := index', store := storeSet s.store existingTaskId d2 },
       some existingTaskId)

/-- `scheduleWakeup(task, delayMs, context, category)` with the Redis
collaborator configured.  `now` stands for `Date.now()` and `freshId` for
the generated `wakeup_<time>_<random>` id. -/
def scheduleWakeup (s : SchedState) (mergeWindowMs now : Nat) (task : String)
    (delayMs : Nat) (context : String) (category : Option String)
    (freshId : String) : SchedState × Option String :=
  let wakeupTime := now + delayMs
  match findNearbyReminder s mergeWindowMs wakeupTime with
  | some nearbyReminderId =>
      mergeIntoExistingReminder s nearbyReminderId task context now wakeupTime
  | none =>
      let wakeupData : WakeupData :=
        { task := task, context := context, category := category,
          originalTime := now, wakeupTime := wakeupTime,
          mergedTasks := [{ task := task, context := context, time := now,
                            scheduledFor := wakeupTime }] }
      ({ index := zadd s.index wakeupTime freshId,
         store := storeSet s.store freshId wakeupData },
       some freshId)

/-- `cancelReminder(taskId)`: remove both the index entry and the record. -/
def cancelReminder (s : SchedState) (taskId : String) : SchedState :=
  { index := zrem s.index taskId, store := storeDel s.store taskId }

/-- One iteration of the `processWakeups` loop body for a ready task id.
`cbThrows d = true` models the awaited `novaCallback(followUpPrompt)`
throwing for the record `d` (the prompt is a function of the record); the
`catch` then skips the clean-up `zrem`/`del` for that entry.  The second
component accumulates the ids for which the callback was invoked. -/
def sweepStep (cbThrows : WakeupData → Bool) (acc : SchedState × List String)
    (taskId : String) : SchedState × List String :=
  let (st, fired) := acc
  match storeGet st.store taskId with
  | some d =>
      if cbThrows d then (st, fired ++ [taskId])
      else
        ({ index := zrem st.index taskId, store := storeDel st.store taskId },
         fired ++ [taskId])
  | none =>
      ({ index := zrem st.index taskId, store := storeDel st.store taskId }, fired)

/-- `processWakeups(novaCallback)`: range-query the ready set once, then
process each entry inside its own failure boundary.  Returns the final
state together with the list of task ids whose callback fired. -/
def processWakeups (cbThrows : WakeupData → Bool) (now : Nat) (s : SchedState) :
    SchedState × List String :=
  (zrangeByScore s.index 0 now).foldl (sweepStep cbThrows) (s, [])

/-! ## PlanResolver: email identifier resolution (`action-executor.js`) -/

/-- `DEFAULT_EMAIL_LIMIT`. -/
def DEFAULT_EMAIL_LIMIT : Int := 5

/-- `parseEmailSequence(value)`: `String(value).trim()` must be entirely
decimal digits (`/^\d+$/`), in which case the parsed integer is returned.
`null` (and, at the caller, an absent property) yields no parse. -/
def parseEmailSequence : JVal → Option Nat
  | .jnull => none
  | v => digitsToNat? (jsTrim (jsToString v))

/-- The ordered candidate identifier keys scanned by
`resolveEmailIdentifier`. -/
def candidateKeys : List String :=
  ["emailId", "emailID", "email_id", "uid", "messageId", "message_id"]

/-- The candidate-key loop of `resolveEmailIdentifier`: the first present
key whose value parses as a sequence number returns immediately
(`Sum.inl`); non-integer, non-blank string values are retained in order as
fallback strings (`Sum.inr`). -/
def scanCandidates (plan : JObj) : List String → List String → Sum Nat (List String)
  | [], fallbackStrings => .inr fallbackStrings
  | key :: rest, fallbackStrings =>
      match objGet plan key with
      | none => scanCandidates plan rest fallbackStrings
      | some raw =>
          match parseEmailSequence raw with
          | some parsed => .inl parsed
          | none =>
              match raw with
              | .jstr s =>
                  if (jsTrim s).isEmpty then scanCandidates plan rest fallbackStrings
                  else scanCandidates plan rest (fallbackStrings ++ [jsTrim s])
              | _ => scanCandidates plan rest fallbackStrings

/-- Search criteria: at most the three canonical keys. -/
structure Criteria where
  subject : Option String := none
  sender : Option String := none
  content : Option String := none
deriving Repr, DecidableEq

/-- `Object.keys(criteria).length === 0`. -/
def Criteria.isEmpty (c : Criteria) : Bool :=
  c.subject.isNone && c.sender.isNone && c.content.isNone

/-- `addCriterion(field, value)` admits only non-blank strings, trimmed. -/
def strCriterion (v : Option JVal) : Option String :=
  match v with
  | some (.jstr s) => if (jsTrim s).isEmpty then none else some (jsTrim s)
  | _ => none

/-- The alias table of `resolveEmailIdentifier` (first-writer-wins per
canonical key; the free-text `response`/`message` fields are not read —
the source notes `plan.message` was removed from the criteria). -/
def deriveCriteria (plan : JObj) : Criteria where
  subject := strCriterion (objGet plan "subject")
    <|> strCriterion (objGet plan "subject_line")
    <|> strCriterion (objGet plan "emailSubject")
    <|> strCriterion (objGet plan "title")
  sender := strCriterion (objGet plan "sender")
    <|> strCriterion (objGet plan "from")
    <|> strCriterion (objGet plan "author")
    <|> strCriterion (objGet plan "fromEmail")
    <|> strCriterion (objGet plan "fromAddress")
  content := strCriterion (objGet plan "content")
    <|> strCriterion (objGet plan "snippet")
    <|> strCriterion (objGet plan "body")
    <|> strCriterion (objGet plan "preview")
    <|> strCriterion (objGet plan "text")

/-- `looksLikeSender(text)`. -/
def looksLikeSender (text : String) : Bool :=
  if text.isEmpty then false
  else
    (jsToLower text).data.contains '@'
    || startsWithFromWs text
    || containsWordCI text "sent by" || containsWordCI text "from"
    || containsWordCI text "by"
    || containsWordCI text "support" || containsWordCI text "service"
    || containsWordCI text "team" || containsWordCI text "noreply"
    || containsWordCI text "no-reply"

/-- `looksLikeSubject(text)`. -/
def looksLikeSubject (text : String) : Bool :=
  if text.isEmpty then false
  else
    startsWithCI text "re:" || startsWithCI text "fwd:" || startsWithCI text "fw:"
    || startsWithCI text "subject:"
    || containsWordCI text "urgent" || containsWordCI text "important"
    || containsWordCI text "meeting" || containsWordCI text "reminder"
    || containsWordCI text "invoice" || containsWordCI text "receipt"
    || containsWordCI text "confirmation"
    || capWordPattern text

/-- What `resolveEmailIdentifier` decides before any external call: a
direct sequence number, a search with derived criteria, or the
missing-identification failure. -/
inductive ResolveStep where
  | direct (seqno : Nat)
  | search (criteria : Criteria)
  | missingId
deriving Repr, DecidableEq

/-- The pure decision core of `resolveEmailIdentifier(accountId, plan)`:
candidate-key scan, alias-table criteria, fallback-string classification,
hard failure on an empty criterion set. -/
def resolveCore (plan : JObj) : ResolveStep :=
  match scanCandidates plan candidateKeys [] with
  | .inl parsed => .direct parsed
  | .inr fallbackStrings =>
      let criteria := deriveCriteria plan
      let criteria :=
        if criteria.isEmpty && !fallbackStrings.isEmpty then
          match fallbackStrings with
          | fallback :: _ =>
              if looksLikeSender fallback then { criteria with sender := some fallback }
              else if looksLikeSubject fallback then { criteria with subject := some fallback }
              else { criteria with content := some fallback }
          | [] => criteria
        else criteria
      if criteria.isEmpty then .missingId else .search criteria

/-- `resolveEmailIdentifier(accountId, plan)` with the search collaborator
`searchEmailsForSeqno(accountId, criteria, limit)` supplied as an oracle
(it may itself throw).  Zero results is the typed no-match failure; the
first result is taken otherwise. -/
def resolveEmailIdentifier
    (searchEmailsForSeqno : String → Criteria → Int → Except String (List Nat))
    (accountId : String) (plan : JObj) : Except String Nat :=
  match resolveCore plan with
  | .direct seqno => .ok seqno
  | .missingId => .error "Need email identification (emailId, subject, sender, or content)"
  | .search criteria =>
      match searchEmailsForSeqno accountId criteria 3 with
      | .error e => .error e
      | .ok [] => .error "Unable to locate email matching the provided criteria"
      | .ok (seqno :: _) => .ok seqno

/-! ## Account resolution -/

/-- A configured mail account (id plus optional address). -/
structure Account where
  id : String
  email : Option String
deriving Repr, DecidableEq

/-- `accounts.map(a => a.id).join(', ')`. -/
def availableList (accounts : List Account) : String :=
  joinWith ", " (accounts.map Account.id)

/-- Whether an account matches the normalized token (id first, then the
truthy email, both lowercased). -/
def accountMatches (normalized : String) (a : Account) : Bool :=
  jsToLower a.id == normalized ||
    (match a.email with
     | some e => !e.isEmpty && jsToLower e == normalized
     | none => false)

/-- `resolveAccountId(preferred)` of `action-executor.js` (the strict
variant): `ok none` models the `null` return for an empty account list;
absence, blanks, non-strings and mismatches are hard errors naming the
valid set. -/
def resolveAccountId (accounts : List Account) (preferred : Option JVal) :
    Except String (Option String) :=
  if accounts.isEmpty then .ok none
  else
    match preferred with
    | some (.jstr s) =>
        if s.isEmpty then
          .error ("No email account specified. Available accounts: " ++ availableList accounts)
        else
          let normalized := jsToLower (jsTrim s)
          if normalized.isEmpty then
            .error ("No email account specified. Available accounts: " ++ availableList accounts)
          else
            match accounts.find? (accountMatches normalized) with
            | some account => .ok (some account.id)
            | none =>
                .error ("Email account \"" ++ s ++ "\" not found. Available accounts: "
                  ++ availableList accounts)
    | _ => .error ("No email account specified. Available accounts: " ++ availableList accounts)

/-- The superseded `resolveAccountId` of the older executor copy kept in
the repository (not imported by the entry point): it silently falls back
to the first configured account on absence or mismatch. -/
def resolveAccountIdLegacy (accounts : List Account) (preferred : Option JVal) :
    Option String :=
  if accounts.isEmpty then none
  else
    match preferred with
    | some (.jstr s) =>
        if s.isEmpty then accounts.head?.map Account.id
        else
          let normalized := jsToLower (jsTrim s)
          if normalized.isEmpty then accounts.head?.map Account.id
          else
            match accounts.find? (accountMatches normalized) with
            | some account => some account.id
            | none => accounts.head?.map Account.id
    | _ => accounts.head?.map Account.id

/-! ## ActionDispatcher (`executeAction` and the owner-notification policy) -/

/-- The dispatcher's environment: the configured owner number
(`process.env.MY_NUMBER`) and the outcome of attempting the
notification-email send for a given message body. -/
structure DispatchEnv where
  ownerNumber : Option String
  sendNotification : String → Except String Unit

/-- `notifyOwner(message, {force})`: blank messages no-op; without `force`
an unconfigured owner no-ops; with `force` an unconfigured owner throws;
a failing send is caught and swallowed.  Returns the list of message
bodies handed to the transport. -/
def notifyOwner (env : DispatchEnv) (message : Option JVal) (force : Bool) :
    Except String (List String) :=
  if !optTruthy message || (!force && env.ownerNumber.isNone) then .ok []
  else
    match env.ownerNumber with
    | none => .error "No owner number configured for notification"
    | some _ =>
        let body := jsToString (message.getD .jnull)
        match env.sendNotification body with
        | _ => .ok [body]

/-- `notifyOwnerIfNeeded(plan, handlerResult)`: forwards the plan's
free-text `response` unless the handler set `skipOwnerNotification`, no
owner is configured, or the send-email-to-SMS-gateway loop-prevention
check fires.  A truthy non-string `plan.to` makes `plan.to.includes`
throw, as in JS (arrays, which do have `includes`, are checked for the
gateway string as an element). -/
def notifyOwnerIfNeeded (env : DispatchEnv) (plan : JObj)
    (skipOwnerNotification : Bool) : Except String (List String) :=
  if !optTruthy (objGet plan "response") || env.ownerNumber.isNone then .ok []
  else if skipOwnerNotification then .ok []
  else
    let isSendEmail :=
      match objGet plan "action" with
      | some (.jstr a) => a == "send_email"
      | _ => false
    if isSendEmail && optTruthy (objGet plan "to") then
      match objGet plan "to" with
      | some (.jstr t) =>
          if jsIncludes t "@msg.fi.google.com" then .ok []
          else notifyOwner env (objGet plan "response") false
      | some (.jarr elems) =>
          if elems.any (fun v => match v with
              | .jstr s => s == "@msg.fi.google.com"
              | _ => false) then .ok []
          else notifyOwner env (objGet plan "response") false
      | _ => .error "plan.to.includes is not a function"
    else notifyOwner env (objGet plan "response") false

/-- The keys of the `actionHandlers` table. -/
def actionNames : List String :=
  ["send_email", "check_email", "search_email", "mark_spam", "mark_read",
   "mark_unread", "delete_email", "move_email", "unsubscribe_email",
   "schedule_reminder", "add_task", "check_calendar", "web_search"]

/-- The dispatcher's normalized outcome shape, generic over the details
payload a handler returns. -/
structure ExecResult (δ : Type) where
  success : Bool
  action : Option String := none
  details : Option δ := none
  error : Option String := none
deriving Repr, DecidableEq

/-- `plan.action` coerced as the dispatcher does:
`typeof plan.action === "string" ? plan.action.trim() : ""`. -/
def actionNameOf (plan : JObj) : String :=
  match objGet plan "action" with
  | some (.jstr s) => jsTrim s
  | _ => ""

/-- `executeAction(plan)`.  A handler's execution (collaborator calls
included) is the oracle `handlerRun`, returning its details plus its
`skipOwnerNotification` flag, or the message of what it threw.  The outer
`Except` records whether `executeAction` itself rejects — the envelope
theorem shows it never does.  The string list collects the dispatcher's
own owner notifications. -/
def executeAction {δ : Type} (env : DispatchEnv)
    (handlerRun : String → JObj → Except String (δ × Bool)) (plan : JObj) :
    Except String (ExecResult δ × List String) :=
  let actionName := actionNameOf plan
  if actionName.isEmpty then
    .ok ({ success := false, error := some "missing_action" }, [])
  else if !(actionNames.contains actionName) then
    let msg : JVal :=
      if optTruthy (objGet plan "response") then (objGet plan "response").getD .jnull
      else .jstr ("Nova planned unsupported action \"" ++ actionName ++ "\".")
    (notifyOwner env (some msg) false).map fun sent =>
      ({ success := false, action := some actionName, error := some "unsupported_action" }, sent)
  else
    match handlerRun actionName plan with
    | .ok (details, skip) =>
        match notifyOwnerIfNeeded env plan skip with
        | .ok sent =>
            .ok ({ success := true, action := some actionName, details := some details }, sent)
        | .error e =>
            (notifyOwner env
                (some (.jstr ("I hit an error while executing " ++ actionName ++ ": " ++ e)))
                false).map fun sent =>
              ({ success := false, action := some actionName, error := some e }, sent)
    | .error e =>
        (notifyOwner env
            (some (.jstr ("I hit an error while executing " ++ actionName ++ ": " ++ e)))
            false).map fun sent =>
          ({ success := false, action := some actionName, error := some e }, sent)

/-! ## The read-only mail handlers and their summaries -/

/-- A fetched email as the handlers consume it (`seqno` is modelled as
always present). -/
structure Email where
  seqno : Nat
  subject : Option String
  sender : Option String
  date : Option String
  text : Option String
deriving Repr, DecidableEq

/-- One bullet line of `summarizeEmails`. -/
def summarizeLine (formatDate : String → String) (includePreview : Bool)
    (email : Email) : String :=
  let subject := jsOr email.subject "(no subject)"
  let sender := jsOr email.sender "unknown sender"
  let dateLabel :=
    match email.date with
    | some d => if d.isEmpty then "unknown date" else formatDate d
    | none => "unknown date"
  let line := "• " ++ subject ++ " — " ++ sender ++ " (" ++ dateLabel ++ ") ["
    ++ toString email.seqno ++ "]"
  match email.text with
  | some t =>
      if includePreview && !t.isEmpty then
        let preview := (jsTrim (collapseWs t)).take 120
        if preview.isEmpty then line
        else line ++ "\n    " ++ preview
          ++ (if preview.length = 120 then "…" else "")
      else line
  | none => line

/-- `summarizeEmails(emails, {includePreview})`.  `formatDate` stands for
the locale-dependent `new Date(d).toLocaleString()`. -/
def summarizeEmails (formatDate : String → String) (emails : List Email)
    (includePreview : Bool) : String :=
  if emails.isEmpty then "No matching emails found."
  else
    joinWith "\n"
      ((emails.take DEFAULT_EMAIL_LIMIT.toNat).map (summarizeLine formatDate includePreview))

/-- Unsubscribe metadata returned by the mailbox collaborator. -/
structure UnsubInfo where
  subject : Option String
  sender : Option String
  listUnsubscribe : Option String
  links : List String
deriving Repr, DecidableEq

/-- `buildUnsubscribeSummary(info)` (`none` models a `null` info). -/
def buildUnsubscribeSummary (info : Option UnsubInfo) : String :=
  match info with
  | none => "Unable to extract unsubscribe options."
  | some i =>
      let lines : List String :=
        (match i.subject with
         | some s => if s.isEmpty then [] else ["Subject: " ++ s]
         | none => [])
        ++ (match i.sender with
            | some f => if f.isEmpty then [] else ["From: " ++ f]
            | none => [])
        ++ (match i.listUnsubscribe with
            | some l => if l.isEmpty then [] else ["List-Unsubscribe: " ++ l]
            | none => [])
        ++ (if i.links.isEmpty then []
            else "Links:" ::
              ((i.links.take 3).enum.map fun p =>
                "  " ++ toString (p.1 + 1) ++ ". " ++ p.2))
      joinWith "\n" lines

/-- The mailbox collaborator oracles the modelled handlers consume, plus
the locale date formatter. -/
structure MailEnv where
  accounts : List Account
  getRecentEmails : String → Int → Except String (List Email)
  searchEmailsForSeqno : String → Criteria → Int → Except String (List Nat)
  unsubscribeFromEmail : String → Nat → Except String (Option UnsubInfo)
  formatDate : String → String

/-- Details payloads of the modelled handlers. -/
inductive MailDetails where
  | check (accountId : String) (emails : List Email)
  | searchRes (accountId : String) (results : List Email) (criteria : Criteria)
  | unsub (accountId : String) (emailId : Nat) (info : Option UnsubInfo)
deriving Repr, DecidableEq

/-- `Number.isInteger(plan.limit) ? plan.limit : DEFAULT_EMAIL_LIMIT`. -/
def limitOf (plan : JObj) : Int :=
  match objGet plan "limit" with
  | some (.jnum n) => n
  | _ => DEFAULT_EMAIL_LIMIT

/-- `handleCheckEmail(plan)` (each `await` written as an explicit match on
the `Except` outcome, errors propagating). -/
def handleCheckEmail (env : DispatchEnv) (menv : MailEnv) (plan : JObj) :
    Except String (MailDetails × Bool) :=
  match resolveAccountId menv.accounts (objGet plan "account") with
  | .error e => .error e
  | .ok none => .error "No email account available for check_email"
  | .ok (some accountId) =>
      match menv.getRecentEmails accountId (limitOf plan) with
      | .error e => .error e
      | .ok emails =>
          let summary := summarizeEmails menv.formatDate emails false
          match (if !summary.isEmpty then notifyOwner env (some (.jstr summary)) true
                 else (.ok [] : Except String (List String))) with
          | .error e => .error e
          | .ok _ => .ok (.check accountId emails, true)

/-- Stable descending sort by `seqno` (`.sort((a, b) => b.seqno - a.seqno)`). -/
def insertBySeqnoDesc (e : Email) : List Email → List Email
  | [] => [e]
  | x :: rest =>
      if x.seqno < e.seqno then e :: x :: rest
      else x :: insertBySeqnoDesc e rest

/-- Stable descending sort by `seqno` over a list. -/
def sortBySeqnoDesc (l : List Email) : List Email :=
  l.foldr insertBySeqnoDesc []

/-- `handleSearchEmail(plan)`. -/
def handleSearchEmail (env : DispatchEnv) (menv : MailEnv) (plan : JObj) :
    Except String (MailDetails × Bool) :=
  match resolveAccountId menv.accounts (objGet plan "account") with
  | .error e => .error e
  | .ok none => .error "No email account available for search_email"
  | .ok (some accountId) =>
      let criteria : Criteria :=
        { subject := strCriterion (objGet plan "subject"),
          sender := strCriterion (objGet plan "sender"),
          content := strCriterion (objGet plan "content") }
      if criteria.isEmpty then
        .error "search_email requires at least one search criterion (subject, sender, or content)"
      else
        match menv.searchEmailsForSeqno accountId criteria (limitOf plan) with
        | .error e => .error e
        | .ok seqnos =>
            match (if !seqnos.isEmpty then
                     match menv.getRecentEmails accountId (max 25 (limitOf plan)) with
                     | .error e => (.error e : Except String (List Email))
                     | .ok recent =>
                         .ok (sortBySeqnoDesc
                           (recent.filter fun e => seqnos.contains e.seqno))
                   else (.ok [] : Except String (List Email))) with
            | .error e => .error e
            | .ok results =>
                let summary := summarizeEmails menv.formatDate results true
                match (if !summary.isEmpty then notifyOwner env (some (.jstr summary)) true
                       else (.ok [] : Except String (List String))) with
                | .error e => .error e
                | .ok _ => .ok (.searchRes accountId results criteria, true)

/-- `handleUnsubscribeEmail(plan)`. -/
def handleUnsubscribeEmail (env : DispatchEnv) (menv : MailEnv) (plan : JObj) :
    Except String (MailDetails × Bool) :=
  match resolveAccountId menv.accounts (objGet plan "account") with
  | .error e => .error e
  | .ok none => .error "No email account available for unsubscribe_email"
  | .ok (some accountId) =>
      match resolveEmailIdentifier menv.searchEmailsForSeqno accountId plan with
      | .error e => .error e
      | .ok emailId =>
          match menv.unsubscribeFromEmail accountId emailId with
          | .error e => .error e
          | .ok info =>
              let summary := buildUnsubscribeSummary info
              match (if !summary.isEmpty then notifyOwner env (some (.jstr summary)) true
                     else (.ok [] : Except String (List String))) with
              | .error e => .error e
              | .ok _ => .ok (.unsub accountId emailId info, true)

/-- The fragment of the handler table the claims exercise; the remaining
handlers of the source table are outside the modelled slice. -/
def mailHandlerRun (env : DispatchEnv) (menv : MailEnv) :
    String → JObj → Except String (MailDetails × Bool) := fun name plan =>
  if name = "check_email" then handleCheckEmail env menv plan
  else if name = "search_email" then handleSearchEmail env menv plan
  else if name = "unsubscribe_email" then handleUnsubscribeEmail env menv plan
  else .error "handler outside the modelled fragment"

/-! ## ReasoningNormalizer (`nova-brain.js`, the post-LLM part of `respond`) -/

/-- `BASE_ALLOWED_ACTIONS`. -/
def BASE_ALLOWED_ACTIONS : List String :=
  ["send_email", "check_email", "search_email", "mark_spam", "mark_read",
   "mark_unread", "delete_email", "move_email", "unsubscribe_email",
   "schedule_reminder", "add_task", "check_calendar", "web_search"]

/-- `EMAIL_CONTEXT_ACTIONS`. -/
def EMAIL_CONTEXT_ACTIONS : List String :=
  ["send_email", "search_email", "mark_spam", "delete_email", "move_email",
   "unsubscribe_email", "mark_read", "mark_unread", "schedule_reminder"]

/-- `ERROR_CONTEXT_ACTIONS`. -/
def ERROR_CONTEXT_ACTIONS : List String := ["send_email"]

/-- `getAllowedActionsForContext(context)`. -/
def getAllowedActionsForContext (context : String) : List String :=
  match jsToLower context with
  | "email" => EMAIL_CONTEXT_ACTIONS
  | "incoming_email" => EMAIL_CONTEXT_ACTIONS
  | "error" => ERROR_CONTEXT_ACTIONS
  | _ => BASE_ALLOWED_ACTIONS

/-- The fallback response inserted when the decision lacks one. -/
def cannedResponse : String := "I understand. Let me think about the best way to help."

/-- `v === 'none'` (strict string comparison). -/
def isNoneStr (v : JVal) : Bool :=
  match v with
  | .jstr s => s == "none"
  | _ => false

/-- The normalization `NovaBrain.respond` applies to the parsed LLM
output.  `raw` is the result of `safeJsonParse` (`none` for unparseable
output), `actionContext` the context string, `myNumber`
`process.env.MY_NUMBER`.  The only rejection path is the
`result.action.replace` type error reached when a truthy non-string
action survives to the final response fix-up. -/
def normalizeRespond (raw : Option JVal) (actionContext : String)
    (myNumber : Option String) : Except String JObj :=
  let result : JObj :=
    match raw with
    | some (.jobj fields) => fields
    | some (.jarr elems) => elems.enum.map fun p => (toString p.1, p.2)
    | _ => []
  -- Fix nested action structure if present
  let result :=
    match objGet result "action" with
    | some (.jobj afields) =>
        if optTruthy (objGet afields "action") then
          let actionName := (objGet afields "action").getD .jnull
          let actionParams := objDelete afields "action"
          objAssign (objSet result "action" actionName) actionParams
        else result
    | _ => result
  -- Validate action is allowed in current context
  let result :=
    match objGet result "action" with
    | some (.jstr s) =>
        if s.isEmpty then result
        else if (getAllowedActionsForContext actionContext).contains s then result
        else objDelete result "action"
    | _ => result
  -- Dual action sets rule
  let noAction :=
    !optTruthy (objGet result "action")
    || (match objGet result "action" with
        | some v => isNoneStr v
        | none => false)
  let result :=
    if noAction then
      let result :=
        if !isNonemptyStr (objGet result "response") then
          objSet result "response" (.jstr cannedResponse)
        else result
      let result :=
        match objGet result "action" with
        | some v => if isNoneStr v then objDelete result "action" else result
        | none => result
      if optTruthy (objGet result "response") && actionContext ≠ "email" then
        let result := objSet result "action" (.jstr "send_email")
        let result := objSet result "to" (.jstr
          (match myNumber with
           | some n => n ++ "@msg.fi.google.com"
           | none => "stephen@valenceapp.net"))
        let result := objSet result "subject" (.jstr "Nova Update")
        let result := objSet result "body" ((objGet result "response").getD .jnull)
        objSet result "account" (.jstr "nova-sms")
      else result
    else result
  -- Ensure response exists (required field)
  if isNonemptyStr (objGet result "response") then .ok result
  else
    match objGet result "action" with
    | some (.jstr s) =>
        if s.isEmpty then .ok (objSet result "response" (.jstr cannedResponse))
        else .ok (objSet result "response"
          (.jstr ("I'll handle that " ++ replaceFirst s "_" " " ++ " for you.")))
    | some v =>
        if v.truthy then .error "result.action.replace is not a function"
        else .ok (objSet result "response" (.jstr cannedResponse))
    | none => .ok (objSet result "response" (.jstr cannedResponse))

/-! ## Scheduler lemmas -/

/-- Scheduling on an empty store always creates a fresh record. -/
lemma scheduleWakeup_empty (mergeWindowMs now : Nat) (task : String) (delayMs : Nat)
    (context : String) (category : Option String) (freshId : String) :
    scheduleWakeup SchedState.empty mergeWindowMs now task delayMs context category freshId =
      (⟨[(now + delayMs, freshId)],
        [(freshId,
          { task := task, context := context, category := category,
            originalTime := now, wakeupTime := now + delayMs,
            mergedTasks := [{ task := task, context := context, time := now,
                              scheduledFor := now + delayMs }] })]⟩,
       some freshId) := rfl

/-- `findNearbyReminder` on a single-reminder state selects it exactly
when its indexed fire-time lies inside the window. -/
lemma findNearbyReminder_single (t1 : Nat) (id1 : String) (rec : WakeupData)
    (mergeWindowMs target : Nat) :
    findNearbyReminder ⟨[(t1, id1)], [(id1, rec)]⟩ mergeWindowMs target =
      (if target - mergeWindowMs ≤ t1 ∧ t1 ≤ target + mergeWindowMs
       then some id1 else none) := by
  by_cases h : target - mergeWindowMs ≤ t1 ∧ t1 ≤ target + mergeWindowMs
  · have h1 : target ≤ t1 + mergeWindowMs := by omega
    have h2 : t1 ≤ target + mergeWindowMs := h.2
    simp [findNearbyReminder, zrangeByScore, storeGet, List.lookup, h1, h2]
  · by_cases h1 : target ≤ t1 + mergeWindowMs
    · have h2 : ¬ t1 ≤ target + mergeWindowMs := by omega
      simp [findNearbyReminder, zrangeByScore, h1, h2]
    · simp [findNearbyReminder, zrangeByScore, h1]

/-- Merging into the single reminder of a single-reminder state (whose
index entry agrees with the record's fire-time). -/
lemma mergeIntoExistingReminder_single (id1 task context : String) (now t1 t2 : Nat)
    (rec : WakeupData) (ht : rec.wakeupTime = t1) :
    mergeIntoExistingReminder ⟨[(t1, id1)], [(id1, rec)]⟩ id1 task context now t2 =
      (⟨[(min t1 t2, id1)],
        [(id1,
          { rec with
            task := "Combined reminder (" ++ toString (rec.mergedTasks.length + 1) ++ " tasks)",
            wakeupTime := min t1 t2,
            mergedTasks := rec.mergedTasks ++
              [{ task := task, context := context, time := now, scheduledFor := t2 }] })]⟩,
       some id1) := by
  subst ht
  have hget : storeGet [(id1, rec)] id1 = some rec := by simp [storeGet, List.lookup]
  by_cases hlt : t2 < rec.wakeupTime
  · have hmin : min rec.wakeupTime t2 = t2 := Nat.min_eq_right (Nat.le_of_lt hlt)
    have hne : min rec.wakeupTime t2 ≠ rec.wakeupTime := by omega
    have hne2 : ¬ (t2 = rec.wakeupTime) := by omega
    simp [mergeIntoExistingReminder, hget, hne, hne2, hmin, zadd, zrem, zinsert, storeSet,
      List.length_append]
  · have hmin : min rec.wakeupTime t2 = rec.wakeupTime := Nat.min_eq_left (Nat.le_of_not_lt hlt)
    have hne : ¬ (min rec.wakeupTime t2 ≠ rec.wakeupTime) := by omega
    simp [mergeIntoExistingReminder, hget, hne, hmin, storeSet, List.length_append]

/-- Two `scheduleWakeup` calls from the empty state whose targets fall
inside the merge window produce a single merged record. -/
lemma scheduleWakeup_two_merge (W n1 d1 n2 d2 : Nat) (task1 task2 ctx1 ctx2 : String)
    (cat1 cat2 : Option String) (id1 id2 : String)
    (h1 : n2 + d2 - W ≤ n1 + d1) (h2 : n1 + d1 ≤ n2 + d2 + W) :
    scheduleWakeup (scheduleWakeup SchedState.empty W n1 task1 d1 ctx1 cat1 id1).1
        W n2 task2 d2 ctx2 cat2 id2 =
      (⟨[(min (n1 + d1) (n2 + d2), id1)],
        [(id1,
          { task := "Combined reminder (2 tasks)", context := ctx1, category := cat1,
            originalTime := n1, wakeupTime := min (n1 + d1) (n2 + d2),
            mergedTasks := [{ task := task1, context := ctx1, time := n1,
                              scheduledFor := n1 + d1 },
                            { task := task2, context := ctx2, time := n2,
                              scheduledFor := n2 + d2 }] })]⟩,
       some id1) := by
  rw [scheduleWakeup_empty]
  unfold scheduleWakeup
  dsimp only
  have hm := mergeIntoExistingReminder_single id1 task2 ctx2 n2 (n1 + d1) (n2 + d2)
    { task := task1, context := ctx1, category := cat1, originalTime := n1,
      wakeupTime := n1 + d1,
      mergedTasks := [{ task := task1, context := ctx1, time := n1,
                        scheduledFor := n1 + d1 }] } rfl
  rw [findNearbyReminder_single, if_pos ⟨h1, h2⟩]
  dsimp only
  rw [hm]
  simp only [List.singleton_append, List.length_cons, List.length_singleton]
  rfl

/-- Two `scheduleWakeup` calls from the empty state whose targets fall
outside the merge window create two distinct records. -/
lemma scheduleWakeup_two_nomerge (W n1 d1 n2 d2 : Nat) (task1 task2 ctx1 ctx2 : String)
    (cat1 cat2 : Option String) (id1 id2 : String) (hid : id1 ≠ id2)
    (h : ¬ (n2 + d2 - W ≤ n1 + d1 ∧ n1 + d1 ≤ n2 + d2 + W)) :
    scheduleWakeup (scheduleWakeup SchedState.empty W n1 task1 d1 ctx1 cat1 id1).1
        W n2 task2 d2 ctx2 cat2 id2 =
      (⟨zinsert [(n1 + d1, id1)] (n2 + d2) id2,
        [(id1,
          { task := task1, context := ctx1, category := cat1, originalTime := n1,
            wakeupTime := n1 + d1,
            mergedTasks := [{ task := task1, context := ctx1, time := n1,
                              scheduledFor := n1 + d1 }] }),
         (id2,
          { task := task2, context := ctx2, category := cat2, originalTime := n2,
            wakeupTime := n2 + d2,
            mergedTasks := [{ task := task2, context := ctx2, time := n2,
                              scheduledFor := n2 + d2 }] })]⟩,
       some id2) := by
  rw [scheduleWakeup_empty]
  unfold scheduleWakeup
  dsimp only
  rw [findNearbyReminder_single, if_neg h]
  simp [zadd, zrem, storeSet, hid, Ne.symm hid]

/-- `zinsert` grows the index by exactly one entry. -/
lemma zinsert_length (l : List (Nat × String)) (s : Nat) (m : String) :
    (zinsert l s m).length = l.length + 1 := by
  induction l with
  | nil => rfl
  | cons p rest ih =>
      unfold zinsert
      split
      · simp
      · simp [ih]

/-- The inserted entry is a member of the result. -/
lemma mem_zinsert_self (l : List (Nat × String)) (s : Nat) (m : String) :
    (s, m) ∈ zinsert l s m := by
  induction l with
  | nil => simp [zinsert]
  | cons p rest ih =>
      unfold zinsert
      split
      · simp
      · simp [ih]

/-- Existing entries survive `zinsert`. -/
lemma mem_zinsert_of_mem (l : List (Nat × String)) (s : Nat) (m : String)
    (p : Nat × String) (h : p ∈ l) : p ∈ zinsert l s m := by
  induction l with
  | nil => simp at h
  | cons q rest ih =>
      unfold zinsert
      rcases List.mem_cons.mp h with h' | h'
      · subst h'
        split <;> simp
      · split
        · simp [h']
        · simp [ih h']

/-- **C3**: from an empty store, two `scheduleWakeup` calls whose target
times lie within the default 2-hour merge window of each other yield a
single record whose `mergedTasks` has length 2 and whose fire-time (in
the record and in the index) is the earlier of the two targets; two calls
whose targets lie outside the window yield two distinct records. -/
theorem scheduleWakeup_merge_window_spec (n1 d1 n2 d2 : Nat)
    (task1 task2 ctx1 ctx2 : String) (cat1 cat2 : Option String) (id1 id2 : String) :
    ((n2 + d2 ≤ n1 + d1 + defaultMergeWindowMs ∧
      n1 + d1 ≤ n2 + d2 + defaultMergeWindowMs) →
      ∃ rec : WakeupData,
        scheduleWakeup
            (scheduleWakeup SchedState.empty defaultMergeWindowMs n1 task1 d1 ctx1 cat1 id1).1
            defaultMergeWindowMs n2 task2 d2 ctx2 cat2 id2 =
          (⟨[(min (n1 + d1) (n2 + d2), id1)], [(id1, rec)]⟩, some id1) ∧
        rec.mergedTasks.length = 2 ∧ rec.wakeupTime = min (n1 + d1) (n2 + d2))
    ∧ (id1 ≠ id2 →
      (n1 + d1 + defaultMergeWindowMs < n2 + d2 ∨
       n2 + d2 + defaultMergeWindowMs < n1 + d1) →
      ∃ rec1 rec2 : WakeupData,
        (scheduleWakeup
            (scheduleWakeup SchedState.empty defaultMergeWindowMs n1 task1 d1 ctx1 cat1 id1).1
            defaultMergeWindowMs n2 task2 d2 ctx2 cat2 id2).1.store =
          [(id1, rec1), (id2, rec2)] ∧
        (scheduleWakeup
            (scheduleWakeup SchedState.empty defaultMergeWindowMs n1 task1 d1 ctx1 cat1 id1).1
            defaultMergeWindowMs n2 task2 d2 ctx2 cat2 id2).2 = some id2 ∧
        (scheduleWakeup
            (scheduleWakeup SchedState.empty defaultMergeWindowMs n1 task1 d1 ctx1 cat1 id1).1
            defaultMergeWindowMs n2 task2 d2 ctx2 cat2 id2).1.index.length = 2 ∧
        rec1.wakeupTime = n1 + d1 ∧ rec2.wakeupTime = n2 + d2) := by
  constructor
  · intro h
    have h1 : n2 + d2 - defaultMergeWindowMs ≤ n1 + d1 := by omega
    rw [scheduleWakeup_two_merge defaultMergeWindowMs n1 d1 n2 d2 task1 task2 ctx1 ctx2
      cat1 cat2 id1 id2 h1 h.2]
    exact ⟨_, rfl, rfl, rfl⟩
  · intro hid h
    have h' : ¬ (n2 + d2 - defaultMergeWindowMs ≤ n1 + d1 ∧
        n1 + d1 ≤ n2 + d2 + defaultMergeWindowMs) := by omega
    rw [scheduleWakeup_two_nomerge defaultMergeWindowMs n1 d1 n2 d2 task1 task2 ctx1 ctx2
      cat1 cat2 id1 id2 hid h']
    refine ⟨_, _, rfl, rfl, ?_, rfl, rfl⟩
    simp [zinsert_length]

/-- Witness for the merge-window theorem at the spec's own example delays:
30 and 45 minutes merge into one record firing at the 30-minute mark;
30 minutes and 5 hours stay two records. -/
theorem scheduleWakeup_merge_window_spec_witness :
    (∃ rec : WakeupData,
      scheduleWakeup
          (scheduleWakeup SchedState.empty defaultMergeWindowMs 0 "A" 1800000 "c1" none "w1").1
          defaultMergeWindowMs 0 "B" 2700000 "c2" none "w2" =
        (⟨[(min (0 + 1800000) (0 + 2700000), "w1")], [("w1", rec)]⟩, some "w1") ∧
      rec.mergedTasks.length = 2 ∧ rec.wakeupTime = min (0 + 1800000) (0 + 2700000))
    ∧ (∃ rec1 rec2 : WakeupData,
      (scheduleWakeup
          (scheduleWakeup SchedState.empty defaultMergeWindowMs 0 "A" 1800000 "c1" none "w1").1
          defaultMergeWindowMs 0 "B" 18000000 "c2" none "w2").1.store =
        [("w1", rec1), ("w2", rec2)] ∧
      (scheduleWakeup
          (scheduleWakeup SchedState.empty defaultMergeWindowMs 0 "A" 1800000 "c1" none "w1").1
          defaultMergeWindowMs 0 "B" 18000000 "c2" none "w2").2 = some "w2" ∧
      (scheduleWakeup
          (scheduleWakeup SchedState.empty defaultMergeWindowMs 0 "A" 1800000 "c1" none "w1").1
          defaultMergeWindowMs 0 "B" 18000000 "c2" none "w2").1.index.length = 2 ∧
      rec1.wakeupTime = 0 + 1800000 ∧ rec2.wakeupTime = 0 + 18000000) :=
  ⟨(scheduleWakeup_merge_window_spec 0 1800000 0 2700000 "A" "B" "c1" "c2"
      none none "w1" "w2").1 (by decide),
   (scheduleWakeup_merge_window_spec 0 1800000 0 18000000 "A" "B" "c1" "c2"
      none none "w1" "w2").2 (by decide) (by decide)⟩

/-- **C9**: proximity merging pays no attention to the category argument —
a second call with a different category still merges into the nearby
reminder, and the merged record keeps the first reminder's category. -/
theorem scheduleWakeup_merge_ignores_category (n1 d1 n2 d2 : Nat)
    (task1 task2 ctx1 ctx2 : String) (cat1 cat2 : Option String) (id1 id2 : String)
    (h : n2 + d2 ≤ n1 + d1 + defaultMergeWindowMs ∧
         n1 + d1 ≤ n2 + d2 + defaultMergeWindowMs) :
    ∃ rec : WakeupData,
      scheduleWakeup
          (scheduleWakeup SchedState.empty defaultMergeWindowMs n1 task1 d1 ctx1 cat1 id1).1
          defaultMergeWindowMs n2 task2 d2 ctx2 cat2 id2 =
        (⟨[(min (n1 + d1) (n2 + d2), id1)], [(id1, rec)]⟩, some id1) ∧
      rec.category = cat1 ∧ rec.mergedTasks.length = 2 := by
  have h1 : n2 + d2 - defaultMergeWindowMs ≤ n1 + d1 := by omega
  rw [scheduleWakeup_two_merge defaultMergeWindowMs n1 d1 n2 d2 task1 task2 ctx1 ctx2
    cat1 cat2 id1 id2 h1 h.2]
  exact ⟨_, rfl, rfl, rfl⟩

/-- Witness: merging a `"news"`-categorised call into a `"billing"`
reminder keeps category `"billing"`. -/
theorem scheduleWakeup_merge_ignores_category_witness :
    ∃ rec : WakeupData,
      scheduleWakeup
          (scheduleWakeup SchedState.empty defaultMergeWindowMs 0 "A" 1800000 "c1"
            (some "billing") "w1").1
          defaultMergeWindowMs 0 "B" 2700000 "c2" (some "news") "w2" =
        (⟨[(min (0 + 1800000) (0 + 2700000), "w1")], [("w1", rec)]⟩, some "w1") ∧
      rec.category = some "billing" ∧ rec.mergedTasks.length = 2 :=
  scheduleWakeup_merge_ignores_category 0 1800000 0 2700000 "A" "B" "c1" "c2"
    (some "billing") (some "news") "w1" "w2" (by decide)

/-! ## The sweep: per-entry firing and clean-up -/

/-- A sample persisted reminder record, due at time 100. -/
def sampleWakeup : WakeupData :=
  { task := "follow up", context := "ctx", category := none,
    originalTime := 0, wakeupTime := 100,
    mergedTasks := [{ task := "follow up", context := "ctx", time := 0,
                      scheduledFor := 100 }] }

/-- `storeGet` on a cons cell. -/
lemma storeGet_cons (k : String) (v : WakeupData) (rest : List (String × WakeupData))
    (id : String) :
    storeGet ((k, v) :: rest) id = if id == k then some v else storeGet rest id := by
  cases h : id == k <;> simp [storeGet, List.lookup, h]

/-- `storeDel` on a cons cell keeps exactly the other keys. -/
lemma storeDel_cons (k : String) (v : WakeupData) (rest : List (String × WakeupData))
    (rem : String) :
    storeDel ((k, v) :: rest) rem =
      if k = rem then storeDel rest rem else (k, v) :: storeDel rest rem := by
  by_cases hr : k = rem <;> simp [storeDel, List.filter_cons, hr]

/-- Deleting never resurrects an absent record. -/
lemma storeDel_absent (l : List (String × WakeupData)) (id rem : String)
    (h : storeGet l id = none) : storeGet (storeDel l rem) id = none := by
  induction l with
  | nil => simp [storeDel, storeGet, List.lookup]
  | cons p rest ih =>
      obtain ⟨k, v⟩ := p
      rw [storeGet_cons] at h
      by_cases hk : (id == k) = true
      · rw [if_pos hk] at h
        exact absurd h (by simp)
      · rw [if_neg hk] at h
        rw [storeDel_cons]
        by_cases hr : k = rem
        · rw [if_pos hr]
          exact ih h
        · rw [if_neg hr, storeGet_cons, if_neg hk]
          exact ih h

/-- Deleting one key leaves the others' lookups unchanged. -/
lemma storeDel_other (l : List (String × WakeupData)) (id rem : String)
    (h : id ≠ rem) : storeGet (storeDel l rem) id = storeGet l id := by
  induction l with
  | nil => simp [storeDel, storeGet, List.lookup]
  | cons p rest ih =>
      obtain ⟨k, v⟩ := p
      rw [storeDel_cons, storeGet_cons]
      by_cases hr : k = rem
      · subst hr
        have hk : (id == k) = false := by
          simpa [beq_eq_false_iff_ne] using h
        rw [if_pos rfl, if_neg (by simp [hk])]
        exact ih
      · rw [if_neg hr, storeGet_cons]
        by_cases hk : (id == k) = true
        · rw [if_pos hk, if_pos hk]
        · rw [if_neg hk, if_neg hk]
          exact ih

/-- Deleting a key removes its record. -/
lemma storeDel_self (l : List (String × WakeupData)) (id : String) :
    storeGet (storeDel l id) id = none := by
  induction l with
  | nil => simp [storeDel, storeGet, List.lookup]
  | cons p rest ih =>
      obtain ⟨k, v⟩ := p
      rw [storeDel_cons]
      by_cases hk : k = id
      · rw [if_pos hk]
        exact ih
      · rw [if_neg hk, storeGet_cons]
        have : (id == k) = false := by
          simpa [beq_eq_false_iff_ne] using Ne.symm hk
        rw [if_neg (by simp [this])]
        exact ih

/-- Membership in a `zrem` result. -/
lemma mem_zrem_iff (idx : List (Nat × String)) (p : Nat × String) (rem : String) :
    p ∈ zrem idx rem ↔ p ∈ idx ∧ p.2 ≠ rem := by
  simp [zrem, List.mem_filter]

/-- `zrem` removes every index entry of the given member. -/
lemma not_mem_map_snd_zrem (idx : List (Nat × String)) (id : String) :
    id ∉ (zrem idx id).map Prod.snd := by
  simp only [List.mem_map, not_exists]
  rintro p ⟨hp, hid⟩
  exact ((mem_zrem_iff idx p id).mp hp).2 hid

/-- An id absent from the index stays absent after any `zrem`. -/
lemma map_snd_zrem_absent (idx : List (Nat × String)) (id rem : String)
    (h : id ∉ idx.map Prod.snd) : id ∉ (zrem idx rem).map Prod.snd := by
  simp only [List.mem_map, not_exists] at h ⊢
  rintro p ⟨hp, hid⟩
  exact h p ⟨((mem_zrem_iff idx p rem).mp hp).1, hid⟩

/-- A sweep step cannot resurrect an absent record. -/
lemma sweepStep_store_absent (cb : WakeupData → Bool) (st : SchedState)
    (fired : List String) (tid id : String) (h : storeGet st.store id = none) :
    storeGet ((sweepStep cb (st, fired) tid).1).store id = none := by
  unfold sweepStep
  dsimp only
  cases hg : storeGet st.store tid with
  | none =>
      simp only [hg]
      exact storeDel_absent _ _ _ h
  | some d =>
      cases hc : cb d <;>
        simp only [hg, hc, Bool.false_eq_true, if_false, if_true] <;>
        first
          | exact storeDel_absent _ _ _ h
          | exact h

/-- A sweep step cannot resurrect an absent index member. -/
lemma sweepStep_index_absent (cb : WakeupData → Bool) (st : SchedState)
    (fired : List String) (tid id : String)
    (h : id ∉ st.index.map Prod.snd) :
    id ∉ ((sweepStep cb (st, fired) tid).1).index.map Prod.snd := by
  unfold sweepStep
  dsimp only
  cases hg : storeGet st.store tid with
  | none =>
      simp only [hg]
      exact map_snd_zrem_absent _ _ _ h
  | some d =>
      cases hc : cb d <;>
        simp only [hg, hc, Bool.false_eq_true, if_false, if_true] <;>
        first
          | exact map_snd_zrem_absent _ _ _ h
          | exact h

/-- A sweep step for another id leaves this id's record untouched. -/
lemma sweepStep_store_other (cb : WakeupData → Bool) (st : SchedState)
    (fired : List String) (tid id : String) (h : id ≠ tid) :
    storeGet ((sweepStep cb (st, fired) tid).1).store id = storeGet st.store id := by
  unfold sweepStep
  dsimp only
  cases hg : storeGet st.store tid with
  | none =>
      simp only [hg]
      exact storeDel_other _ _ _ h
  | some d =>
      cases hc : cb d
      · simp only [hg, hc, Bool.false_eq_true, if_false]
        exact storeDel_other _ _ _ h
      · simp only [hg, hc, if_true]

/-- A sweep step for another id keeps this id's index entry. -/
lemma sweepStep_index_other (cb : WakeupData → Bool) (st : SchedState)
    (fired : List String) (tid id : String) (t : Nat) (h : id ≠ tid)
    (hm : (t, id) ∈ st.index) :
    (t, id) ∈ ((sweepStep cb (st, fired) tid).1).index := by
  unfold sweepStep
  dsimp only
  cases hg : storeGet st.store tid with
  | none =>
      simp only [hg]
      exact (mem_zrem_iff _ _ _).mpr ⟨hm, h⟩
  | some d =>
      cases hc : cb d <;>
        simp only [hg, hc, Bool.false_eq_true, if_false, if_true] <;>
        first
          | exact (mem_zrem_iff st.index (t, id) tid).mpr ⟨hm, h⟩
          | exact hm

/-- Absence of a record survives the whole sweep fold. -/
lemma sweepFold_store_absent (cb : WakeupData → Bool) (ready : List String)
    (st : SchedState) (fired : List String) (id : String)
    (h : storeGet st.store id = none) :
    storeGet ((ready.foldl (sweepStep cb) (st, fired)).1).store id = none := by
  induction ready generalizing st fired with
  | nil => exact h
  | cons tid rest ih =>
      rw [List.foldl_cons]
      rcases hsp : sweepStep cb (st, fired) tid with ⟨st2, fired2⟩
      have h2 := sweepStep_store_absent cb st fired tid id h
      rw [hsp] at h2
      exact ih st2 fired2 h2

/-- Absence of an index member survives the whole sweep fold. -/
lemma sweepFold_index_absent (cb : WakeupData → Bool) (ready : List String)
    (st : SchedState) (fired : List String) (id : String)
    (h : id ∉ st.index.map Prod.snd) :
    id ∉ ((ready.foldl (sweepStep cb) (st, fired)).1).index.map Prod.snd := by
  induction ready generalizing st fired with
  | nil => exact h
  | cons tid rest ih =>
      rw [List.foldl_cons]
      rcases hsp : sweepStep cb (st, fired) tid with ⟨st2, fired2⟩
      have h2 := sweepStep_index_absent cb st fired tid id h
      rw [hsp] at h2
      exact ih st2 fired2 h2

/-- The fired list only ever grows, by a sublist of the ready list. -/
lemma sweepFold_fired_append (cb : WakeupData → Bool) (ready : List String)
    (st : SchedState) (fired : List String) :
    ∃ extra, (ready.foldl (sweepStep cb) (st, fired)).2 = fired ++ extra ∧
      extra.Sublist ready := by
  induction ready generalizing st fired with
  | nil => exact ⟨[], by simp, List.Sublist.refl []⟩
  | cons tid rest ih =>
      rw [List.foldl_cons]
      have hcases : (sweepStep cb (st, fired) tid).2 = fired ∨
          (sweepStep cb (st, fired) tid).2 = fired ++ [tid] := by
        unfold sweepStep
        dsimp only
        cases hg : storeGet st.store tid with
        | none => simp [hg]
        | some d => cases hc : cb d <;> simp [hg, hc]
      rcases hsp : sweepStep cb (st, fired) tid with ⟨st2, fired2⟩
      rw [hsp] at hcases
      dsimp only at hcases
      rcases ih st2 fired2 with ⟨extra, he, hsub⟩
      rcases hcases with hf | hf
      · exact ⟨extra, by rw [he, hf], hsub.cons tid⟩
      · refine ⟨tid :: extra, ?_, hsub.cons₂ tid⟩
        rw [he, hf]
        simp


/-- A ready id whose record is present does get its callback fired. -/
lemma sweepFold_fires (cb : WakeupData → Bool) (ready : List String)
    (st : SchedState) (fired : List String) (id : String) (d : WakeupData)
    (hmem : id ∈ ready) (hst : storeGet st.store id = some d) :
    id ∈ (ready.foldl (sweepStep cb) (st, fired)).2 := by
  induction ready generalizing st fired with
  | nil => simp at hmem
  | cons tid rest ih =>
      rw [List.foldl_cons]
      by_cases htid : id = tid
      · subst htid
        have hfired : (sweepStep cb (st, fired) id).2 = fired ++ [id] := by
          unfold sweepStep
          dsimp only
          rw [hst]
          cases hc : cb d <;> simp [hc]
        rcases hsp : sweepStep cb (st, fired) id with ⟨st2, fired2⟩
        rw [hsp] at hfired
        dsimp only at hfired
        rcases sweepFold_fired_append cb rest st2 fired2 with ⟨extra, he, _⟩
        rw [he, hfired]
        simp
      · have hmem' : id ∈ rest := by
          rcases List.mem_cons.mp hmem with h | h
          · exact absurd h htid
          · exact h
        rcases hsp : sweepStep cb (st, fired) tid with ⟨st2, fired2⟩
        have hst2 := sweepStep_store_other cb st fired tid id htid
        rw [hsp] at hst2
        dsimp only at hst2
        exact ih st2 fired2 hmem' (hst2.trans hst)

/-- A ready entry whose callback completes without throwing is removed
from both the record store and the index by the sweep. -/
lemma sweepFold_removes (cb : WakeupData → Bool) (ready : List String)
    (st : SchedState) (fired : List String) (id : String) (d : WakeupData)
    (hmem : id ∈ ready) (hst : storeGet st.store id = some d)
    (hcb : cb d = false) :
    storeGet ((ready.foldl (sweepStep cb) (st, fired)).1).store id = none ∧
    id ∉ ((ready.foldl (sweepStep cb) (st, fired)).1).index.map Prod.snd := by
  induction ready generalizing st fired with
  | nil => simp at hmem
  | cons tid rest ih =>
      rw [List.foldl_cons]
      by_cases htid : id = tid
      · subst htid
        have hstep : (sweepStep cb (st, fired) id).1 =
            ⟨zrem st.index id, storeDel st.store id⟩ := by
          unfold sweepStep
          dsimp only
          simp only [hst, hcb]
          simp
        rcases hsp : sweepStep cb (st, fired) id with ⟨st2, fired2⟩
        rw [hsp] at hstep
        dsimp only at hstep
        have h1 : storeGet st2.store id = none := by
          rw [hstep]; exact storeDel_self _ _
        have h2 : id ∉ st2.index.map Prod.snd := by
          rw [hstep]; exact not_mem_map_snd_zrem _ _
        exact ⟨sweepFold_store_absent cb rest st2 fired2 id h1,
               sweepFold_index_absent cb rest st2 fired2 id h2⟩
      · have hmem' : id ∈ rest := by
          rcases List.mem_cons.mp hmem with h | h
          · exact absurd h htid
          · exact h
        rcases hsp : sweepStep cb (st, fired) tid with ⟨st2, fired2⟩
        have hst2 := sweepStep_store_other cb st fired tid id htid
        rw [hsp] at hst2
        dsimp only at hst2
        exact ih st2 fired2 hmem' (hst2.trans hst)

/-- An entry whose callback throws keeps both its record and its index
entry through the whole sweep. -/
lemma sweepFold_keeps (cb : WakeupData → Bool) (ready : List String)
    (st : SchedState) (fired : List String) (id : String) (d : WakeupData)
    (t : Nat) (hst : storeGet st.store id = some d) (hcb : cb d = true)
    (hidx : (t, id) ∈ st.index) :
    storeGet ((ready.foldl (sweepStep cb) (st, fired)).1).store id = some d ∧
    (t, id) ∈ ((ready.foldl (sweepStep cb) (st, fired)).1).index := by
  induction ready generalizing st fired with
  | nil => exact ⟨hst, hidx⟩
  | cons tid rest ih =>
      rw [List.foldl_cons]
      by_cases htid : id = tid
      · subst htid
        have hstep : (sweepStep cb (st, fired) id).1 = st := by
          unfold sweepStep
          dsimp only
          simp only [hst, hcb]
          simp
        rcases hsp : sweepStep cb (st, fired) id with ⟨st2, fired2⟩
        rw [hsp] at hstep
        dsimp only at hstep
        rw [hstep]
        exact ih st fired2 hst hidx
      · rcases hsp : sweepStep cb (st, fired) tid with ⟨st2, fired2⟩
        have h1 := sweepStep_store_other cb st fired tid id htid
        have h2 := sweepStep_index_other cb st fired tid id t htid hidx
        rw [hsp] at h1 h2
        dsimp only at h1 h2
        exact ih st2 fired2 (h1.trans hst) h2

/-- An entry whose callback throws keeps its record through the whole
sweep (no index entry needed). -/
lemma sweepFold_keeps_store (cb : WakeupData → Bool) (ready : List String)
    (st : SchedState) (fired : List String) (id : String) (d : WakeupData)
    (hst : storeGet st.store id = some d) (hcb : cb d = true) :
    storeGet ((ready.foldl (sweepStep cb) (st, fired)).1).store id = some d := by
  induction ready generalizing st fired with
  | nil => exact hst
  | cons tid rest ih =>
      rw [List.foldl_cons]
      by_cases htid : id = tid
      · subst htid
        have hstep : (sweepStep cb (st, fired) id).1 = st := by
          unfold sweepStep
          dsimp only
          simp only [hst, hcb]
          simp
        rcases hsp : sweepStep cb (st, fired) id with ⟨st2, fired2⟩
        rw [hsp] at hstep
        dsimp only at hstep
        rw [hstep]
        exact ih st fired2 hst
      · rcases hsp : sweepStep cb (st, fired) tid with ⟨st2, fired2⟩
        have h1 := sweepStep_store_other cb st fired tid id htid
        rw [hsp] at h1
        dsimp only at h1
        exact ih st2 fired2 (h1.trans hst)

/-- Index members in the score window belong to the range query. -/
lemma mem_zrangeByScore (idx : List (Nat × String)) (lo hi t : Nat) (m : String)
    (h : (t, m) ∈ idx) (h1 : lo ≤ t) (h2 : t ≤ hi) :
    m ∈ zrangeByScore idx lo hi := by
  simp only [zrangeByScore, List.mem_map]
  exact ⟨(t, m), List.mem_filter.mpr ⟨h, by simpa using ⟨h1, h2⟩⟩, rfl⟩

/-- The ready list drawn from a duplicate-free index is duplicate-free. -/
lemma zrangeByScore_nodup (idx : List (Nat × String)) (lo hi : Nat)
    (h : (idx.map Prod.snd).Nodup) : (zrangeByScore idx lo hi).Nodup := by
  have hsub : (zrangeByScore idx lo hi).Sublist (idx.map Prod.snd) :=
    (List.filter_sublist idx).map Prod.snd
  exact h.sublist hsub

/-- **C1 counterexample**: with one due reminder and a throwing callback,
the sweep fires the callback but the `catch` skips the clean-up, so the
entry survives in both the index and the record store, and the very next
sweep fires the same reminder again — contradicting "removes both …
even when the callback throws" and "no later sweep can fire it again". -/
theorem processWakeups_throwing_callback_leaves_trace :
    (processWakeups (fun _ => true) 100 ⟨[(100, "w1")], [("w1", sampleWakeup)]⟩).2 = ["w1"]
    ∧ (processWakeups (fun _ => true) 100 ⟨[(100, "w1")], [("w1", sampleWakeup)]⟩).1 =
        ⟨[(100, "w1")], [("w1", sampleWakeup)]⟩
    ∧ (processWakeups (fun _ => true) 100
        (processWakeups (fun _ => true) 100 ⟨[(100, "w1")], [("w1", sampleWakeup)]⟩).1).2 =
        ["w1"] :=
  ⟨rfl, rfl, rfl⟩

/-- **C1 (amended)**: during one sweep each due entry fires its callback at
most once (the fired list is duplicate-free when the index is); an entry
whose callback returns without throwing is removed from both the index
and the record store; but an entry whose callback throws keeps its record
and index entry, and a later sweep fires it again. -/
theorem processWakeups_fire_and_cleanup (cbThrows : WakeupData → Bool) (now : Nat)
    (s : SchedState) (id : String) (d : WakeupData) (t : Nat)
    (hnodup : (s.index.map Prod.snd).Nodup) :
    (processWakeups cbThrows now s).2.Nodup
    ∧ (id ∈ zrangeByScore s.index 0 now → storeGet s.store id = some d →
        id ∈ (processWakeups cbThrows now s).2
        ∧ (cbThrows d = false →
            storeGet (processWakeups cbThrows now s).1.store id = none ∧
            id ∉ ((processWakeups cbThrows now s).1.index.map Prod.snd))
        ∧ (cbThrows d = true →
            storeGet (processWakeups cbThrows now s).1.store id = some d ∧
            ((t, id) ∈ s.index →
              (t, id) ∈ (processWakeups cbThrows now s).1.index ∧
              (t ≤ now →
                id ∈ (processWakeups cbThrows now (processWakeups cbThrows now s).1).2)))) := by
  constructor
  · rcases sweepFold_fired_append cbThrows (zrangeByScore s.index 0 now) s []
      with ⟨extra, he, hsub⟩
    unfold processWakeups
    rw [he]
    simpa using (zrangeByScore_nodup s.index 0 now hnodup).sublist hsub
  · intro hmem hst
    refine ⟨sweepFold_fires cbThrows _ s [] id d hmem hst, ?_, ?_⟩
    · intro hcb
      exact sweepFold_removes cbThrows _ s [] id d hmem hst hcb
    · intro hcb
      have hkeep := fun hidx =>
        sweepFold_keeps cbThrows (zrangeByScore s.index 0 now) s [] id d t hst hcb hidx
      constructor
      · exact sweepFold_keeps_store cbThrows _ s [] id d hst hcb
      · intro hidx
        refine ⟨(hkeep hidx).2, ?_⟩
        intro htle
        have hready2 : id ∈ zrangeByScore (processWakeups cbThrows now s).1.index 0 now :=
          mem_zrangeByScore _ 0 now t id (hkeep hidx).2 (Nat.zero_le t) htle
        exact sweepFold_fires cbThrows _ _ [] id d hready2 (hkeep hidx).1

/-- Witness for the amended sweep theorem: a single due reminder with a
non-throwing callback fires once and disappears from index and store. -/
theorem processWakeups_fire_and_cleanup_witness :
    (processWakeups (fun _ => false) 100 ⟨[(100, "w9")], [("w9", sampleWakeup)]⟩).2.Nodup
    ∧ storeGet (processWakeups (fun _ => false) 100
        ⟨[(100, "w9")], [("w9", sampleWakeup)]⟩).1.store "w9" = none
    ∧ "w9" ∉ ((processWakeups (fun _ => false) 100
        ⟨[(100, "w9")], [("w9", sampleWakeup)]⟩).1.index.map Prod.snd) := by
  have h := processWakeups_fire_and_cleanup (fun _ => false) 100
    ⟨[(100, "w9")], [("w9", sampleWakeup)]⟩ "w9" sampleWakeup 100 (by decide)
  have h2 := h.2 (by decide) rfl
  exact ⟨h.1, (h2.2.1 rfl).1, (h2.2.1 rfl).2⟩

/-! ## ReasoningNormalizer claims -/

/-- **C2 counterexample**: for the empty raw decision `{}` under the
default `"general"` action context, the normalized decision *does* carry
an `action` field — the dual-action-set rule auto-adds `send_email` —
refuting "carries no action field". -/
theorem respond_empty_object_has_action_field :
    (normalizeRespond (some (JVal.jobj [])) "general" none).map
        (fun fields => objGet fields "action") =
      Except.ok (some (JVal.jstr "send_email")) := rfl

/-- **C2 (amended)**: for `{}` (and for unparseable output, treated as
`{}`) the normalized decision always has the non-empty canned response;
under the `"email"` action context it carries no `action` field, while
under any other context (including the default `"general"`) the
dual-action-set rule auto-adds a `send_email` delivery action. -/
theorem respond_empty_object_normalized :
    cannedResponse.isEmpty = false
    ∧ normalizeRespond (some (JVal.jobj [])) "email" none =
        .ok [("response", JVal.jstr cannedResponse)]
    ∧ normalizeRespond none "email" none =
        .ok [("response", JVal.jstr cannedResponse)]
    ∧ normalizeRespond (some (JVal.jobj [])) "general" none =
        .ok [("response", JVal.jstr cannedResponse),
             ("action", JVal.jstr "send_email"),
             ("to", JVal.jstr "stephen@valenceapp.net"),
             ("subject", JVal.jstr "Nova Update"),
             ("body", JVal.jstr cannedResponse),
             ("account", JVal.jstr "nova-sms")]
    ∧ normalizeRespond none "general" none =
        .ok [("response", JVal.jstr cannedResponse),
             ("action", JVal.jstr "send_email"),
             ("to", JVal.jstr "stephen@valenceapp.net"),
             ("subject", JVal.jstr "Nova Update"),
             ("body", JVal.jstr cannedResponse),
             ("account", JVal.jstr "nova-sms")] :=
  ⟨rfl, rfl, rfl, rfl, rfl⟩

/-! ## PlanResolver claims -/

/-- The first successful candidate-key parse, in candidate-key order (the
value `resolveEmailIdentifier` returns from its direct-identifier scan). -/
def firstCandidateParse (plan : JObj) : Option Nat :=
  (candidateKeys.filterMap fun k => (objGet plan k).bind parseEmailSequence).head?

/-- The candidate scan returns the first successful parse, for any
accumulated fallback strings. -/
lemma scanCandidates_of_firstParse (plan : JObj) (keys : List String)
    (fallbackStrings : List String) (n : Nat)
    (h : (keys.filterMap fun k => (objGet plan k).bind parseEmailSequence).head? = some n) :
    scanCandidates plan keys fallbackStrings = .inl n := by
  induction keys generalizing fallbackStrings with
  | nil => simp at h
  | cons k rest ih =>
      rw [List.filterMap_cons] at h
      cases hg : objGet plan k with
      | none =>
          rw [hg] at h
          unfold scanCandidates
          rw [hg]
          exact ih _ h
      | some raw =>
          rw [hg] at h
          cases hp : parseEmailSequence raw with
          | some m =>
              simp only [Option.some_bind, hp, List.head?_cons, Option.some.injEq] at h
              subst h
              unfold scanCandidates
              rw [hg]
              dsimp only
              rw [hp]
          | none =>
              simp only [Option.some_bind, hp] at h
              unfold scanCandidates
              rw [hg]
              dsimp only
              rw [hp]
              dsimp only
              cases raw with
              | jstr s =>
                  dsimp only
                  by_cases hs : (jsTrim s).isEmpty = true
                  · rw [if_pos hs]
                    exact ih _ h
                  · rw [if_neg hs]
                    exact ih _ h
              | jnull => exact ih _ h
              | jbool b => exact ih _ h
              | jnum m => exact ih _ h
              | jarr elems => exact ih _ h
              | jobj fields => exact ih _ h

/-- **C4**: a plan carrying any candidate identifier key whose value is a
digit string resolves directly to the first such parsed integer, and the
search collaborator is never consulted (the result is `ok n` for every
collaborator). -/
theorem resolver_direct_identifier (plan : JObj) (n : Nat)
    (h : firstCandidateParse plan = some n) :
    resolveCore plan = .direct n
    ∧ ∀ (collab : String → Criteria → Int → Except String (List Nat)) (accountId : String),
        resolveEmailIdentifier collab accountId plan = .ok n := by
  have hscan := scanCandidates_of_firstParse plan candidateKeys [] n h
  constructor
  · simp [resolveCore, hscan]
  · intro collab accountId
    simp [resolveEmailIdentifier, resolveCore, hscan]

/-- Witness: `{emailId: "abc", uid: " 42 "}` resolves to 42 even under a
collaborator that finds nothing. -/
theorem resolver_direct_identifier_witness :
    firstCandidateParse [("emailId", JVal.jstr "abc"), ("uid", JVal.jstr " 42 ")] = some 42
    ∧ resolveCore [("emailId", JVal.jstr "abc"), ("uid", JVal.jstr " 42 ")] =
        .direct 42
    ∧ resolveEmailIdentifier (fun _ _ _ => .ok []) "work"
        [("emailId", JVal.jstr "abc"), ("uid", JVal.jstr " 42 ")] = .ok 42 := by
  have h : firstCandidateParse [("emailId", JVal.jstr "abc"), ("uid", JVal.jstr " 42 ")] =
      some 42 := by rfl
  exact ⟨h,
    (resolver_direct_identifier [("emailId", JVal.jstr "abc"), ("uid", JVal.jstr " 42 ")]
      42 h).1,
    (resolver_direct_identifier [("emailId", JVal.jstr "abc"), ("uid", JVal.jstr " 42 ")]
      42 h).2 (fun _ _ _ => .ok []) "work"⟩

/-- Every plan key `resolveEmailIdentifier` reads while deriving an
identification (candidate identifier keys plus criteria aliases). -/
def identKeys : List String :=
  candidateKeys ++
    ["subject", "subject_line", "emailSubject", "title",
     "sender", "from", "author", "fromEmail", "fromAddress",
     "content", "snippet", "body", "preview", "text"]

/-- The candidate scan over absent keys yields the fallbacks unchanged. -/
lemma scanCandidates_all_absent (plan : JObj) (keys : List String)
    (fallbackStrings : List String)
    (h : ∀ k ∈ keys, objGet plan k = none) :
    scanCandidates plan keys fallbackStrings = .inr fallbackStrings := by
  induction keys generalizing fallbackStrings with
  | nil => rfl
  | cons k rest ih =>
      have hk := h k (List.mem_cons_self k rest)
      unfold scanCandidates
      rw [hk]
      exact ih _ (fun k' hk' => h k' (List.mem_cons_of_mem _ hk'))

/-- The `.search` outcome always carries a non-empty criterion set: the
hard-failure check precedes the search, and the fallback classification
only ever sets a field. -/
lemma resolveCore_search_nonempty (plan : JObj) (c : Criteria)
    (h : resolveCore plan = .search c) : c.isEmpty = false := by
  unfold resolveCore at h
  cases hscan : scanCandidates plan candidateKeys [] with
  | inl n =>
      rw [hscan] at h
      exact absurd h (by simp)
  | inr fbs =>
      rw [hscan] at h
      dsimp only at h
      by_cases hc : ((deriveCriteria plan).isEmpty && !fbs.isEmpty) = true
      · rw [if_pos hc] at h
        cases fbs with
        | nil => simp at hc
        | cons f rest =>
            dsimp only at h
            by_cases hsend : looksLikeSender f = true
            · rw [if_pos hsend] at h
              have hne : ({ deriveCriteria plan with sender := some f } : Criteria).isEmpty
                  = false := by simp [Criteria.isEmpty]
              rw [hne] at h
              simp only [Bool.false_eq_true, if_false, ResolveStep.search.injEq] at h
              rw [← h]
              exact hne
            · rw [if_neg hsend] at h
              by_cases hsub : looksLikeSubject f = true
              · rw [if_pos hsub] at h
                have hne : ({ deriveCriteria plan with subject := some f } : Criteria).isEmpty
                    = false := by simp [Criteria.isEmpty]
                rw [hne] at h
                simp only [Bool.false_eq_true, if_false, ResolveStep.search.injEq] at h
                rw [← h]
                exact hne
              · rw [if_neg hsub] at h
                have hne : ({ deriveCriteria plan with content := some f } : Criteria).isEmpty
                    = false := by simp [Criteria.isEmpty]
                rw [hne] at h
                simp only [Bool.false_eq_true, if_false, ResolveStep.search.injEq] at h
                rw [← h]
                exact hne
      · rw [if_neg hc] at h
        by_cases hemp : (deriveCriteria plan).isEmpty = true
        · rw [hemp] at h
          exact absurd h (by simp)
        · rw [Bool.not_eq_true] at hemp
          rw [hemp] at h
          simp only [Bool.false_eq_true, if_false, ResolveStep.search.injEq] at h
          rw [← h]
          exact hemp

/-- **C5**: a plan with none of the identifying fields fails with the
typed missing-identification error, and — for every plan — the search
collaborator is never handed an empty criteria object. -/
theorem resolver_missing_identification :
    (∀ plan : JObj, (∀ k ∈ identKeys, objGet plan k = none) →
      resolveCore plan = .missingId ∧
      ∀ (collab : String → Criteria → Int → Except String (List Nat)) (accountId : String),
        resolveEmailIdentifier collab accountId plan =
          .error "Need email identification (emailId, subject, sender, or content)")
    ∧ (∀ (plan : JObj) (c : Criteria), resolveCore plan = .search c →
        c.isEmpty = false) := by
  constructor
  · intro plan h
    have hscan : scanCandidates plan candidateKeys [] = .inr [] :=
      scanCandidates_all_absent plan candidateKeys []
        (fun k hk => h k (List.mem_append_left _ hk))
    have h1 := h "subject" (by decide)
    have h2 := h "subject_line" (by decide)
    have h3 := h "emailSubject" (by decide)
    have h4 := h "title" (by decide)
    have h5 := h "sender" (by decide)
    have h6 := h "from" (by decide)
    have h7 := h "author" (by decide)
    have h8 := h "fromEmail" (by decide)
    have h9 := h "fromAddress" (by decide)
    have h10 := h "content" (by decide)
    have h11 := h "snippet" (by decide)
    have h12 := h "body" (by decide)
    have h13 := h "preview" (by decide)
    have h14 := h "text" (by decide)
    have hderive : deriveCriteria plan = {} := by
      simp [deriveCriteria, strCriterion, h1, h2, h3, h4, h5, h6, h7, h8, h9, h10,
        h11, h12, h13, h14]
    constructor
    · simp [resolveCore, hscan, hderive, Criteria.isEmpty]
    · intro collab accountId
      simp [resolveEmailIdentifier, resolveCore, hscan, hderive, Criteria.isEmpty]
  · exact resolveCore_search_nonempty

/-- Witness: a plan carrying only the reply text has zero identifying
fields and fails; a subject-only plan reaches search with a non-empty
criterion set. -/
theorem resolver_missing_identification_witness :
    resolveCore [("response", JVal.jstr "hello")] = .missingId
    ∧ resolveEmailIdentifier (fun _ _ _ => .ok [7]) "work"
        [("response", JVal.jstr "hello")] =
        .error "Need email identification (emailId, subject, sender, or content)"
    ∧ Criteria.isEmpty { subject := some "x", sender := none, content := none } = false := by
  have hp : ∀ k ∈ identKeys, objGet [("response", JVal.jstr "hello")] k = none := by
    intro k hk
    fin_cases hk <;> rfl
  exact ⟨(resolver_missing_identification.1 _ hp).1,
    (resolver_missing_identification.1 _ hp).2 (fun _ _ _ => .ok [7]) "work",
    resolver_missing_identification.2 [("subject", JVal.jstr "x")]
      { subject := some "x", sender := none, content := none } rfl⟩

/-- The candidate scan only reads the plan through `objGet` at its keys. -/
lemma scanCandidates_congr (p q : JObj) (keys : List String)
    (h : ∀ k ∈ keys, objGet p k = objGet q k) (fbs : List String) :
    scanCandidates p keys fbs = scanCandidates q keys fbs := by
  induction keys generalizing fbs with
  | nil => rfl
  | cons k rest ih =>
      have hk := h k (List.mem_cons_self k rest)
      have hrest : ∀ k' ∈ rest, objGet p k' = objGet q k' :=
        fun k' hk' => h k' (List.mem_cons_of_mem _ hk')
      unfold scanCandidates
      rw [hk]
      cases objGet q k with
      | none => exact ih hrest fbs
      | some raw =>
          dsimp only
          cases parseEmailSequence raw with
          | some m => rfl
          | none =>
              cases raw with
              | jstr s =>
                  dsimp only
                  by_cases hs : (jsTrim s).isEmpty = true
                  · rw [if_pos hs, if_pos hs]
                    exact ih hrest fbs
                  · rw [if_neg hs, if_neg hs]
                    exact ih hrest _
              | jnull => exact ih hrest fbs
              | jbool b => exact ih hrest fbs
              | jnum m => exact ih hrest fbs
              | jarr elems => exact ih hrest fbs
              | jobj fields => exact ih hrest fbs

/-- **C7**: criteria derivation — and the whole pre-search resolution
decision — is a function of the plan minus its free-text reply fields:
two plans agreeing everywhere except `response`/`message` derive the
same criteria and the same resolution step. -/
theorem criteria_ignore_reply_text (p q : JObj)
    (h : ∀ k, k ≠ "response" → k ≠ "message" → objGet p k = objGet q k) :
    deriveCriteria p = deriveCriteria q ∧ resolveCore p = resolveCore q := by
  have hderive : deriveCriteria p = deriveCriteria q := by
    have h1 := h "subject" (by decide) (by decide)
    have h2 := h "subject_line" (by decide) (by decide)
    have h3 := h "emailSubject" (by decide) (by decide)
    have h4 := h "title" (by decide) (by decide)
    have h5 := h "sender" (by decide) (by decide)
    have h6 := h "from" (by decide) (by decide)
    have h7 := h "author" (by decide) (by decide)
    have h8 := h "fromEmail" (by decide) (by decide)
    have h9 := h "fromAddress" (by decide) (by decide)
    have h10 := h "content" (by decide) (by decide)
    have h11 := h "snippet" (by decide) (by decide)
    have h12 := h "body" (by decide) (by decide)
    have h13 := h "preview" (by decide) (by decide)
    have h14 := h "text" (by decide) (by decide)
    simp [deriveCriteria, h1, h2, h3, h4, h5, h6, h7, h8, h9, h10, h11, h12, h13, h14]
  have hscan : scanCandidates p candidateKeys [] = scanCandidates q candidateKeys [] := by
    refine scanCandidates_congr p q candidateKeys ?_ []
    intro k hk
    refine h k ?_ ?_ <;> (rintro rfl; revert hk; decide)
  refine ⟨hderive, ?_⟩
  unfold resolveCore
  rw [hscan, hderive]

/-- Witness: changing `response` and adding `message` leaves the derived
criteria and the resolution step unchanged. -/
theorem criteria_ignore_reply_text_witness :
    deriveCriteria [("subject", JVal.jstr "Invoice"), ("response", JVal.jstr "on it")] =
      deriveCriteria [("subject", JVal.jstr "Invoice"), ("message", JVal.jstr "look for x"),
        ("response", JVal.jstr "changed")]
    ∧ resolveCore [("subject", JVal.jstr "Invoice"), ("response", JVal.jstr "on it")] =
      resolveCore [("subject", JVal.jstr "Invoice"), ("message", JVal.jstr "look for x"),
        ("response", JVal.jstr "changed")] := by
  refine criteria_ignore_reply_text _ _ ?_
  intro k h1 h2
  by_cases hs : k = "subject"
  · subst hs
    rfl
  · have e1 : (k == "subject") = false := by
      simpa [beq_eq_false_iff_ne] using hs
    have e2 : (k == "response") = false := by
      simpa [beq_eq_false_iff_ne] using h1
    have e3 : (k == "message") = false := by
      simpa [beq_eq_false_iff_ne] using h2
    simp [objGet, List.lookup, e1, e2, e3]

/-! ## Account-resolution claim -/

/-- **C6**: with at least one account configured, the strict
`resolveAccountId` matches the requested token case-insensitively against
account ids and emails; an `ok` result always comes from such a match (so
there is no silent default), and absence, blank tokens, and mismatches
are errors that name the set of valid accounts. -/
theorem resolveAccountId_strict (accounts : List Account) (preferred : Option JVal)
    (hne : accounts ≠ []) :
    (∀ id, resolveAccountId accounts preferred = .ok (some id) →
      ∃ a ∈ accounts, a.id = id ∧ ∃ s, preferred = some (.jstr s) ∧
        accountMatches (jsToLower (jsTrim s)) a = true)
    ∧ resolveAccountId accounts preferred ≠ .ok none
    ∧ ((preferred = none ∨ preferred = some .jnull ∨
        (∃ s, preferred = some (.jstr s) ∧ jsTrim s = "")) →
      resolveAccountId accounts preferred =
        .error ("No email account specified. Available accounts: " ++ availableList accounts))
    ∧ (∀ s, preferred = some (.jstr s) → jsTrim s ≠ "" →
      (∀ a ∈ accounts, accountMatches (jsToLower (jsTrim s)) a = false) →
      resolveAccountId accounts preferred =
        .error ("Email account \"" ++ s ++ "\" not found. Available accounts: "
          ++ availableList accounts)) := by
  have hemp : accounts.isEmpty = false := by
    cases accounts with
    | nil => exact absurd rfl hne
    | cons a rest => rfl
  refine ⟨?_, ?_, ?_, ?_⟩
  · intro id hok
    unfold resolveAccountId at hok
    rw [hemp] at hok
    simp only [Bool.false_eq_true, if_false] at hok
    cases hp : preferred with
    | none => rw [hp] at hok; exact absurd hok (by simp)
    | some v =>
        rw [hp] at hok
        cases v with
        | jstr s =>
            dsimp only at hok
            by_cases hs : s.isEmpty = true
            · rw [if_pos hs] at hok
              exact absurd hok (by simp)
            · rw [if_neg hs] at hok
              by_cases hn : (jsToLower (jsTrim s)).isEmpty = true
              · rw [if_pos hn] at hok
                exact absurd hok (by simp)
              · rw [if_neg hn] at hok
                cases hf : accounts.find? (accountMatches (jsToLower (jsTrim s))) with
                | none => rw [hf] at hok; exact absurd hok (by simp)
                | some a =>
                    rw [hf] at hok
                    simp only [Except.ok.injEq, Option.some.injEq] at hok
                    exact ⟨a, List.mem_of_find?_eq_some hf, hok, s, rfl,
                      List.find?_some hf⟩
        | jnull => exact absurd hok (by simp)
        | jbool b => exact absurd hok (by simp)
        | jnum m => exact absurd hok (by simp)
        | jarr elems => exact absurd hok (by simp)
        | jobj fields => exact absurd hok (by simp)
  · intro hok
    unfold resolveAccountId at hok
    rw [hemp] at hok
    simp only [Bool.false_eq_true, if_false] at hok
    cases hp : preferred with
    | none => rw [hp] at hok; exact absurd hok (by simp)
    | some v =>
        rw [hp] at hok
        cases v with
        | jstr s =>
            dsimp only at hok
            by_cases hs : s.isEmpty = true
            · rw [if_pos hs] at hok
              exact absurd hok (by simp)
            · rw [if_neg hs] at hok
              by_cases hn : (jsToLower (jsTrim s)).isEmpty = true
              · rw [if_pos hn] at hok
                exact absurd hok (by simp)
              · rw [if_neg hn] at hok
                cases hf : accounts.find? (accountMatches (jsToLower (jsTrim s))) with
                | none => rw [hf] at hok; exact absurd hok (by simp)
                | some a => rw [hf] at hok; exact absurd hok (by simp)
        | jnull => exact absurd hok (by simp)
        | jbool b => exact absurd hok (by simp)
        | jnum m => exact absurd hok (by simp)
        | jarr elems => exact absurd hok (by simp)
        | jobj fields => exact absurd hok (by simp)
  · intro hcase
    unfold resolveAccountId
    rw [hemp]
    simp only [Bool.false_eq_true, if_false]
    rcases hcase with hp | hp | ⟨s, hp, hblank⟩
    · rw [hp]
    · rw [hp]
    · rw [hp]
      dsimp only
      by_cases hs : s.isEmpty = true
      · rw [if_pos hs]
      · rw [if_neg hs]
        have hn : (jsToLower (jsTrim s)).isEmpty = true := by
          rw [hblank]
          rfl
        rw [if_pos hn]
  · intro s hp hblank hmatch
    unfold resolveAccountId
    rw [hemp]
    simp only [Bool.false_eq_true, if_false]
    rw [hp]
    dsimp only
    by_cases hs : s.isEmpty = true
    · exfalso
      apply hblank
      have hnil : s = "" := (String.isEmpty_iff _).mp hs
      rw [hnil]
      rfl
    · rw [if_neg hs]
      have hn : (jsToLower (jsTrim s)).isEmpty = false := by
        cases he : (jsToLower (jsTrim s)).isEmpty with
        | false => rfl
        | true =>
            exfalso
            apply hblank
            have h1 : jsToLower (jsTrim s) = "" := (String.isEmpty_iff _).mp he
            have h2 : (jsTrim s).data.map Char.toLower = [] := congrArg String.data h1
            have h3 : (jsTrim s).data = [] := by
              first
                | exact List.map_eq_nil_iff.mp h2
            cases hts : jsTrim s with
            | mk l =>
                rw [hts] at h3
                dsimp only at h3
                rw [h3]
      rw [hn]
      simp only [Bool.false_eq_true, if_false]
      rw [List.find?_eq_none.mpr (fun a ha => by simp [hmatch a ha])]

/-- Witness: with one configured account, a mismatching token and an
absent token each produce the error naming the valid set, and no default
account is returned. -/
theorem resolveAccountId_strict_witness :
    resolveAccountId [{ id := "work", email := some "w@x.com" }] (some (JVal.jstr "gmail")) =
      .error "Email account \"gmail\" not found. Available accounts: work"
    ∧ resolveAccountId [{ id := "work", email := some "w@x.com" }] none =
      .error "No email account specified. Available accounts: work"
    ∧ resolveAccountId [{ id := "work", email := some "w@x.com" }] (some (JVal.jstr "gmail")) ≠
      .ok none := by
  have h := resolveAccountId_strict [{ id := "work", email := some "w@x.com" }]
    (some (JVal.jstr "gmail")) (by decide)
  have h2 := resolveAccountId_strict [{ id := "work", email := some "w@x.com" }]
    none (by decide)
  refine ⟨?_, ?_, h.2.1⟩
  · refine h.2.2.2 "gmail" rfl (by decide) ?_
    intro a ha
    fin_cases ha
    rfl
  · exact h2.2.2.1 (Or.inl rfl)

/-! ## Dispatcher claims -/

/-- Without `force`, `notifyOwner` never throws: blank messages and an
unconfigured owner no-op, and send failures are swallowed. -/
lemma notifyOwner_no_force (env : DispatchEnv) (message : Option JVal) :
    ∃ sent, notifyOwner env message false = .ok sent := by
  unfold notifyOwner
  by_cases ht : optTruthy message = true
  · cases ho : env.ownerNumber with
    | none => simp [ht, ho]
    | some num =>
        simp only [ht, ho, Bool.not_true, Option.isNone_some, Bool.and_false,
          Bool.or_false, Bool.false_eq_true, if_false]
        cases env.sendNotification (jsToString (message.getD .jnull)) <;> exact ⟨_, rfl⟩
  · simp [ht]

/-- **C8**: `executeAction` always returns a normalized result and never
rejects: a blank or absent action yields the `missing_action` failure with
no notification and without consulting the handler table; an unrecognized
action yields the `unsupported_action` failure; and a throwing handler is
converted into `{success := false, action, error := message}`. -/
theorem executeAction_envelope {δ : Type} (env : DispatchEnv)
    (handlerRun : String → JObj → Except String (δ × Bool)) (plan : JObj) :
    (∃ r, executeAction env handlerRun plan = .ok r)
    ∧ (actionNameOf plan = "" →
        executeAction env handlerRun plan =
          .ok ({ success := false, error := some "missing_action" }, []))
    ∧ (actionNameOf plan ≠ "" → actionNames.contains (actionNameOf plan) = false →
        ∃ sent, executeAction env handlerRun plan =
          .ok ({ success := false, action := some (actionNameOf plan),
                 error := some "unsupported_action" }, sent))
    ∧ (∀ m, actionNames.contains (actionNameOf plan) = true →
        handlerRun (actionNameOf plan) plan = .error m →
        ∃ sent, executeAction env handlerRun plan =
          .ok ({ success := false, action := some (actionNameOf plan),
                 error := some m }, sent)) := by
  refine ⟨?_, ?_, ?_, ?_⟩
  · unfold executeAction
    by_cases h1 : (actionNameOf plan).isEmpty = true
    · rw [if_pos h1]
      exact ⟨_, rfl⟩
    · rw [if_neg h1]
      by_cases h2 : actionNames.contains (actionNameOf plan) = true
      · rw [if_neg (by rw [h2]; decide)]
        cases hr : handlerRun (actionNameOf plan) plan with
        | error m =>
            dsimp only
            obtain ⟨sent, hs⟩ := notifyOwner_no_force env
              (some (.jstr ("I hit an error while executing " ++ actionNameOf plan
                ++ ": " ++ m)))
            rw [hs]
            exact ⟨_, rfl⟩
        | ok pr =>
            obtain ⟨d, skip⟩ := pr
            dsimp only
            cases hn : notifyOwnerIfNeeded env plan skip with
            | ok sent =>
                dsimp only
                exact ⟨_, rfl⟩
            | error e =>
                dsimp only
                obtain ⟨sent, hs⟩ := notifyOwner_no_force env
                  (some (.jstr ("I hit an error while executing " ++ actionNameOf plan
                    ++ ": " ++ e)))
                rw [hs]
                exact ⟨_, rfl⟩
      · have h2f : actionNames.contains (actionNameOf plan) = false := by
          cases hb : actionNames.contains (actionNameOf plan) with
          | false => rfl
          | true => exact absurd hb h2
        rw [if_pos (by rw [h2f]; decide)]
        dsimp only
        obtain ⟨sent, hs⟩ := notifyOwner_no_force env
          (some (if optTruthy (objGet plan "response") = true
                 then (objGet plan "response").getD JVal.jnull
                 else JVal.jstr ("Nova planned unsupported action \"" ++ actionNameOf plan
                   ++ "\".")))
        rw [hs]
        exact ⟨_, rfl⟩
  · intro h
    have h1 : (actionNameOf plan).isEmpty = true := (String.isEmpty_iff _).mpr h
    unfold executeAction
    rw [if_pos h1]
  · intro hne hcon
    have h1 : (actionNameOf plan).isEmpty = false := by
      cases he : (actionNameOf plan).isEmpty with
      | false => rfl
      | true => exact absurd ((String.isEmpty_iff _).mp he) hne
    unfold executeAction
    rw [if_neg (by rw [h1]; decide), if_pos (by rw [hcon]; decide)]
    dsimp only
    obtain ⟨sent, hs⟩ := notifyOwner_no_force env
      (some (if optTruthy (objGet plan "response") = true
             then (objGet plan "response").getD JVal.jnull
             else JVal.jstr ("Nova planned unsupported action \"" ++ actionNameOf plan
               ++ "\".")))
    rw [hs]
    exact ⟨sent, rfl⟩
  · intro m hcon herr
    have hne : actionNameOf plan ≠ "" := by
      intro h
      rw [h] at hcon
      exact absurd hcon (by decide)
    have h1 : (actionNameOf plan).isEmpty = false := by
      cases he : (actionNameOf plan).isEmpty with
      | false => rfl
      | true => exact absurd ((String.isEmpty_iff _).mp he) hne
    unfold executeAction
    rw [if_neg (by rw [h1]; decide), if_neg (by rw [hcon]; decide), herr]
    dsimp only
    obtain ⟨sent, hs⟩ := notifyOwner_no_force env
      (some (.jstr ("I hit an error while executing " ++ actionNameOf plan ++ ": " ++ m)))
    rw [hs]
    exact ⟨sent, rfl⟩

/-- Witness: the three rejection shapes at concrete plans. -/
theorem executeAction_envelope_witness :
    executeAction ⟨none, fun _ => .ok ()⟩
        (fun _ _ => (.ok ((0 : Nat), true))) [] =
      .ok ({ success := false, error := some "missing_action" }, [])
    ∧ (∃ sent, executeAction ⟨none, fun _ => .ok ()⟩
        (fun _ _ => (.ok ((0 : Nat), true))) [("action", JVal.jstr "dance")] =
      .ok ({ success := false, action := some "dance",
             error := some "unsupported_action" }, sent))
    ∧ (∃ sent, executeAction ⟨none, fun _ => .ok ()⟩
        (fun _ _ => (.error "boom" : Except String (Nat × Bool)))
        [("action", JVal.jstr "check_email")] =
      .ok ({ success := false, action := some "check_email",
             error := some "boom" }, sent)) :=
  ⟨(executeAction_envelope ⟨none, fun _ => .ok ()⟩
      (fun _ _ => (.ok ((0 : Nat), true))) []).2.1 rfl,
   (executeAction_envelope ⟨none, fun _ => .ok ()⟩
      (fun _ _ => (.ok ((0 : Nat), true))) [("action", JVal.jstr "dance")]).2.2.1
      (by decide) (by decide),
   (executeAction_envelope ⟨none, fun _ => .ok ()⟩
      (fun _ _ => (.error "boom" : Except String (Nat × Bool)))
      [("action", JVal.jstr "check_email")]).2.2.2 "boom" (by decide) rfl⟩

/-! ## Forced owner notifications (check/search/unsubscribe) -/

/-- A non-empty string is not `isEmpty`. -/
lemma ne_empty_of_pos_length (s : String) (h : 0 < s.length) : s.isEmpty = false := by
  cases he : s.isEmpty with
  | false => rfl
  | true =>
      have hs : s = "" := (String.isEmpty_iff _).mp he
      rw [hs] at h
      simp at h

/-- Appending on the right keeps a string non-empty. -/
lemma append_pos_left (a b : String) (h : 0 < a.length) : 0 < (a ++ b).length := by
  rw [String.length_append]
  omega

/-- Every summary bullet line is non-empty (it starts with the bullet). -/
lemma summarizeLine_pos (formatDate : String → String) (includePreview : Bool)
    (email : Email) : 0 < (summarizeLine formatDate includePreview email).length := by
  unfold summarizeLine
  cases email.text with
  | none =>
      dsimp only
      repeat apply append_pos_left
      decide
  | some t =>
      dsimp only
      by_cases h1 : (includePreview && !t.isEmpty) = true
      · rw [if_pos h1]
        by_cases h2 : ((jsTrim (collapseWs t)).take 120).isEmpty = true
        · rw [if_pos h2]
          repeat apply append_pos_left
          decide
        · rw [if_neg h2]
          repeat apply append_pos_left
          decide
      · rw [if_neg h1]
        repeat apply append_pos_left
        decide

/-- Joining a non-empty line with more lines stays non-empty. -/
lemma joinWith_cons_pos (sep x : String) (l : List String) (h : 0 < x.length) :
    0 < (joinWith sep (x :: l)).length := by
  cases l with
  | nil => simpa [joinWith] using h
  | cons y rest =>
      have : joinWith sep (x :: y :: rest) = x ++ sep ++ joinWith sep (y :: rest) := rfl
      rw [this]
      simp only [String.length_append]
      omega

/-- `summarizeEmails` always yields a truthy (non-empty) summary: the
canned "no matches" string or at least one bullet line. -/
lemma summarizeEmails_ne_empty (formatDate : String → String) (emails : List Email)
    (includePreview : Bool) :
    (summarizeEmails formatDate emails includePreview).isEmpty = false := by
  unfold summarizeEmails
  cases emails with
  | nil => rfl
  | cons e rest =>
      rw [if_neg (by simp)]
      have htake : (e :: rest).take DEFAULT_EMAIL_LIMIT.toNat =
          e :: rest.take (DEFAULT_EMAIL_LIMIT.toNat - 1) := rfl
      rw [htake, List.map_cons]
      exact ne_empty_of_pos_length _
        (joinWith_cons_pos _ _ _ (summarizeLine_pos formatDate includePreview e))

/-- `notifyOwner` with a configured owner and `force` delivers the
message, swallowing any send failure. -/
lemma notifyOwner_force_with_owner (num : String) (send : String → Except String Unit)
    (msg : String) (h : msg.isEmpty = false) :
    notifyOwner ⟨some num, send⟩ (some (.jstr msg)) true = .ok [msg] := by
  unfold notifyOwner
  rw [if_neg (by simp [optTruthy, JVal.truthy, h])]
  cases send (jsToString (JVal.jstr msg)) <;> rfl

/-- `notifyOwner` with `force` but no configured owner throws. -/
lemma notifyOwner_force_no_owner (send : String → Except String Unit) (msg : String)
    (h : msg.isEmpty = false) :
    notifyOwner ⟨none, send⟩ (some (.jstr msg)) true =
      .error "No owner number configured for notification" := by
  unfold notifyOwner
  rw [if_neg (by simp [optTruthy, JVal.truthy, h])]

/-- Without `force`, an unconfigured owner makes `notifyOwner` a no-op. -/
lemma notifyOwner_no_owner_no_force (env : DispatchEnv) (msg : Option JVal)
    (h : env.ownerNumber = none) : notifyOwner env msg false = .ok [] := by
  unfold notifyOwner
  by_cases ht : optTruthy msg = true <;> simp [ht, h]

/-- The `check_email` plan used by the forced-notification claim. -/
def checkPlan : JObj := [("action", JVal.jstr "check_email"), ("account", JVal.jstr "work")]

/-- The `search_email` plan used by the forced-notification claim. -/
def searchPlan : JObj :=
  [("action", JVal.jstr "search_email"), ("account", JVal.jstr "work"),
   ("sender", JVal.jstr "news@x.com")]

/-- The `unsubscribe_email` plan used by the forced-notification claim. -/
def unsubPlan : JObj :=
  [("action", JVal.jstr "unsubscribe_email"), ("account", JVal.jstr "work"),
   ("emailId", JVal.jstr "42")]

/-- A mail collaborator with one `work` account whose queries succeed with
the given outputs. -/
def mkMailEnv (emails : List Email) (seqnos : List Nat) (info : Option UnsubInfo)
    (fmt : String → String) : MailEnv :=
  { accounts := [{ id := "work", email := none }],
    getRecentEmails := fun _ _ => .ok emails,
    searchEmailsForSeqno := fun _ _ _ => .ok seqnos,
    unsubscribeFromEmail := fun _ _ => .ok info,
    formatDate := fmt }

/-- With no owner configured, `handleCheckEmail` throws from the forced
notification even though the mailbox query succeeded. -/
lemma handleCheckEmail_no_owner (emails : List Email) (seqnos : List Nat)
    (info : Option UnsubInfo) (fmt : String → String) (send : String → Except String Unit) :
    handleCheckEmail ⟨none, send⟩ (mkMailEnv emails seqnos info fmt) checkPlan =
      .error "No owner number configured for notification" := by
  have hs := summarizeEmails_ne_empty fmt emails false
  unfold handleCheckEmail
  rw [show resolveAccountId (mkMailEnv emails seqnos info fmt).accounts
      (objGet checkPlan "account") = .ok (some "work") from rfl]
  dsimp only [mkMailEnv]
  rw [hs]
  rw [if_pos (show (!false) = true from rfl)]
  rw [notifyOwner_force_no_owner send _ hs]

/-- With no owner configured, `handleSearchEmail` throws from the forced
summary notification even though the search succeeded. -/
lemma handleSearchEmail_no_owner (emails : List Email) (seqnos : List Nat)
    (info : Option UnsubInfo) (fmt : String → String) (send : String → Except String Unit) :
    handleSearchEmail ⟨none, send⟩ (mkMailEnv emails seqnos info fmt) searchPlan =
      .error "No owner number configured for notification" := by
  unfold handleSearchEmail
  rw [show resolveAccountId (mkMailEnv emails seqnos info fmt).accounts
      (objGet searchPlan "account") = .ok (some "work") from rfl]
  dsimp only [mkMailEnv]
  have hcrit : ¬ ((Criteria.mk (strCriterion (objGet searchPlan "subject"))
      (strCriterion (objGet searchPlan "sender"))
      (strCriterion (objGet searchPlan "content"))).isEmpty = true) := by decide
  rw [if_neg hcrit]
  by_cases hseq : seqnos.isEmpty = true
  · rw [hseq]
    rw [if_neg (show ¬ ((!true) = true) from by decide)]
    dsimp only
    have hs := summarizeEmails_ne_empty fmt ([] : List Email) true
    rw [hs, if_pos (show (!false) = true from rfl),
      notifyOwner_force_no_owner send _ hs]
  · have hseq' : seqnos.isEmpty = false := by
      cases hb : seqnos.isEmpty with
      | false => rfl
      | true => exact absurd hb hseq
    rw [hseq', if_pos (show (!false) = true from rfl)]
    dsimp only
    have hs := summarizeEmails_ne_empty fmt
      (sortBySeqnoDesc (emails.filter fun e => seqnos.contains e.seqno)) true
    rw [hs, if_pos (show (!false) = true from rfl),
      notifyOwner_force_no_owner send _ hs]

/-- With no owner configured, `handleUnsubscribeEmail` throws from the
forced notification whenever its summary is non-empty. -/
lemma handleUnsubscribeEmail_no_owner (emails : List Email) (seqnos : List Nat)
    (info : Option UnsubInfo) (fmt : String → String) (send : String → Except String Unit)
    (hinfo : (buildUnsubscribeSummary info).isEmpty = false) :
    handleUnsubscribeEmail ⟨none, send⟩ (mkMailEnv emails seqnos info fmt) unsubPlan =
      .error "No owner number configured for notification" := by
  unfold handleUnsubscribeEmail
  rw [show resolveAccountId (mkMailEnv emails seqnos info fmt).accounts
      (objGet unsubPlan "account") = .ok (some "work") from rfl]
  dsimp only
  rw [show resolveEmailIdentifier (mkMailEnv emails seqnos info fmt).searchEmailsForSeqno
      "work" unsubPlan = .ok 42 from rfl]
  dsimp only [mkMailEnv]
  rw [hinfo, if_pos (show (!false) = true from rfl),
    notifyOwner_force_no_owner send _ hinfo]

/-- With an owner configured, `handleCheckEmail` succeeds whatever the
notification transport does. -/
lemma handleCheckEmail_with_owner (num : String) (emails : List Email) (seqnos : List Nat)
    (info : Option UnsubInfo) (fmt : String → String) (send : String → Except String Unit) :
    handleCheckEmail ⟨some num, send⟩ (mkMailEnv emails seqnos info fmt) checkPlan =
      .ok (.check "work" emails, true) := by
  have hs := summarizeEmails_ne_empty fmt emails false
  unfold handleCheckEmail
  rw [show resolveAccountId (mkMailEnv emails seqnos info fmt).accounts
      (objGet checkPlan "account") = .ok (some "work") from rfl]
  dsimp only [mkMailEnv]
  rw [hs, if_pos (show (!false) = true from rfl),
    notifyOwner_force_with_owner num send _ hs]

/-- Dispatch wrapper: a handler error with no owner configured becomes the
failure result with no dispatcher-level notification. -/
lemma executeAction_handler_error_no_owner {δ : Type} (env : DispatchEnv)
    (handlerRun : String → JObj → Except String (δ × Bool)) (plan : JObj)
    (name m : String) (hname : actionNameOf plan = name)
    (hmem : actionNames.contains name = true)
    (hh : handlerRun name plan = .error m) (hno : env.ownerNumber = none) :
    executeAction env handlerRun plan =
      .ok ({ success := false, action := some name, error := some m }, []) := by
  have hne : name ≠ "" := by
    intro h
    rw [h] at hmem
    exact absurd hmem (by decide)
  have h1 : name.isEmpty = false := by
    cases he : name.isEmpty with
    | false => rfl
    | true => exact absurd ((String.isEmpty_iff _).mp he) hne
  unfold executeAction
  rw [hname, if_neg (by rw [h1]; decide), if_neg (by rw [hmem]; decide), hh]
  dsimp only
  rw [notifyOwner_no_owner_no_force env _ hno]
  rfl

/-- Dispatch wrapper: a handler success carrying the skip flag, on a plan
with no `response`, becomes the success result with no dispatcher-level
notification. -/
lemma executeAction_handler_ok_skip {δ : Type} (env : DispatchEnv)
    (handlerRun : String → JObj → Except String (δ × Bool)) (plan : JObj)
    (name : String) (d : δ) (hname : actionNameOf plan = name)
    (hmem : actionNames.contains name = true)
    (hh : handlerRun name plan = .ok (d, true))
    (hresp : objGet plan "response" = none) :
    executeAction env handlerRun plan =
      .ok ({ success := true, action := some name, details := some d }, []) := by
  have hne : name ≠ "" := by
    intro h
    rw [h] at hmem
    exact absurd hmem (by decide)
  have h1 : name.isEmpty = false := by
    cases he : name.isEmpty with
    | false => rfl
    | true => exact absurd ((String.isEmpty_iff _).mp he) hne
  unfold executeAction
  rw [hname, if_neg (by rw [h1]; decide), if_neg (by rw [hmem]; decide), hh]
  dsimp only
  rw [show notifyOwnerIfNeeded env plan true = .ok [] from by
    unfold notifyOwnerIfNeeded
    rw [hresp]
    rfl]

/-- **C10**: with no owner number configured, the read-only handlers that
force an owner notification (`check_email`, `search_email`,
`unsubscribe_email`, the latter whenever its summary is non-empty) throw
"No owner number configured for notification", so `executeAction` returns
a failure even though every mailbox query succeeded; with an owner number
configured, failures of the notification send itself are swallowed: the
forced notification reports `ok` and the action result stays successful,
for every transport outcome `send`. -/
theorem forced_notifications_require_owner (emails : List Email) (seqnos : List Nat)
    (info : Option UnsubInfo) (fmt : String → String)
    (send : String → Except String Unit) (num : String)
    (hinfo : (buildUnsubscribeSummary info).isEmpty = false) :
    (executeAction ⟨none, send⟩
        (mailHandlerRun ⟨none, send⟩ (mkMailEnv emails seqnos info fmt)) checkPlan =
      .ok ({ success := false, action := some "check_email",
             error := some "No owner number configured for notification" }, []))
    ∧ (executeAction ⟨none, send⟩
        (mailHandlerRun ⟨none, send⟩ (mkMailEnv emails seqnos info fmt)) searchPlan =
      .ok ({ success := false, action := some "search_email",
             error := some "No owner number configured for notification" }, []))
    ∧ (executeAction ⟨none, send⟩
        (mailHandlerRun ⟨none, send⟩ (mkMailEnv emails seqnos info fmt)) unsubPlan =
      .ok ({ success := false, action := some "unsubscribe_email",
             error := some "No owner number configured for notification" }, []))
    ∧ (executeAction ⟨some num, send⟩
        (mailHandlerRun ⟨some num, send⟩ (mkMailEnv emails seqnos info fmt)) checkPlan =
      .ok ({ success := true, action := some "check_email",
             details := some (.check "work" emails) }, []))
    ∧ (∀ s : String, s.isEmpty = false →
        notifyOwner ⟨some num, send⟩ (some (.jstr s)) true = .ok [s]) := by
  refine ⟨?_, ?_, ?_, ?_, fun s hs => notifyOwner_force_with_owner num send s hs⟩
  · refine executeAction_handler_error_no_owner _ _ _ "check_email" _ rfl (by decide) ?_ rfl
    rw [show mailHandlerRun ⟨none, send⟩ (mkMailEnv emails seqnos info fmt) "check_email"
        checkPlan = handleCheckEmail ⟨none, send⟩ (mkMailEnv emails seqnos info fmt)
        checkPlan from rfl]
    exact handleCheckEmail_no_owner emails seqnos info fmt send
  · refine executeAction_handler_error_no_owner _ _ _ "search_email" _ rfl (by decide) ?_ rfl
    rw [show mailHandlerRun ⟨none, send⟩ (mkMailEnv emails seqnos info fmt) "search_email"
        searchPlan = handleSearchEmail ⟨none, send⟩ (mkMailEnv emails seqnos info fmt)
        searchPlan from rfl]
    exact handleSearchEmail_no_owner emails seqnos info fmt send
  · refine executeAction_handler_error_no_owner _ _ _ "unsubscribe_email" _ rfl (by decide) ?_ rfl
    rw [show mailHandlerRun ⟨none, send⟩ (mkMailEnv emails seqnos info fmt) "unsubscribe_email"
        unsubPlan = handleUnsubscribeEmail ⟨none, send⟩ (mkMailEnv emails seqnos info fmt)
        unsubPlan from rfl]
    exact handleUnsubscribeEmail_no_owner emails seqnos info fmt send hinfo
  · refine executeAction_handler_ok_skip _ _ _ "check_email" _ rfl (by decide) ?_ rfl
    rw [show mailHandlerRun ⟨some num, send⟩ (mkMailEnv emails seqnos info fmt) "check_email"
        checkPlan = handleCheckEmail ⟨some num, send⟩ (mkMailEnv emails seqnos info fmt)
        checkPlan from rfl]
    exact handleCheckEmail_with_owner num emails seqnos info fmt send

/-- Witness: the forced-notification behaviour at a concrete environment —
an empty mailbox, an absent unsubscribe info (whose canned summary is
non-empty), and a transport that always fails. -/
theorem forced_notifications_require_owner_witness :
    (executeAction ⟨none, fun _ => .error "transport down"⟩
        (mailHandlerRun ⟨none, fun _ => .error "transport down"⟩
          (mkMailEnv [] [] none (fun d => d))) checkPlan =
      .ok ({ success := false, action := some "check_email",
             error := some "No owner number configured for notification" }, []))
    ∧ (executeAction ⟨some "15551234567", fun _ => .error "transport down"⟩
        (mailHandlerRun ⟨some "15551234567", fun _ => .error "transport down"⟩
          (mkMailEnv [] [] none (fun d => d))) checkPlan =
      .ok ({ success := true, action := some "check_email",
             details := some (.check "work" []) }, [])) :=
  ⟨(forced_notifications_require_owner [] [] none (fun d => d)
      (fun _ => .error "transport down") "15551234567" (by decide)).1,
   (forced_notifications_require_owner [] [] none (fun d => d)
      (fun _ => .error "transport down") "15551234567" (by decide)).2.2.2.1⟩

end Nova
